import Mathlib

/-!
# movieinfo: configuration loader/manager and logger

A shallow embedding of `pkg/config` (types.go, loader.go, manager.go, utils.go)
and `pkg/logger` (logger.go, config.go, simple_logger.go, global.go, init.go).

Conventions of the embedding

* Go `int` and `time.Duration` values are `Int` (no arithmetic is performed on
  them, only comparisons with constants); where a value enters from a file or
  the environment, decoding converts it to 64 bits (`wrapInt64`, `inInt64`).
* Go `string` is `String`; `strings.Contains` is `stringsContains`.
* A Go `error` result is `Option Err` (`none` is `nil`).
* Library calls whose result depends on the outside world (viper reading a
  file, `os.MkdirAll`) are taken as parameters; the static validation of
  go-playground/validator is modelled from the `validate` tags of types.go.
* `viperOf` builds the viper parameter of `LoadConfig` from the files and the
  process environment, following the calls `LoadConfig` makes on viper
  (`SetEnvPrefix`, `AutomaticEnv`, `SetEnvKeyReplacer`, `BindEnv`, `Unmarshal`).
* The logger package runs on an explicit memory (`logger.State`): maps and
  `SimpleLogger` objects live at addresses, so that sharing and mutation can be
  stated; a call either returns or panics (`logger.Result`).
-/

namespace MovieInfo

/-! ## Strings -/

/-- Substring search on character lists: does `sub` occur in the list as a
contiguous block. -/
def hasInfix : List Char → List Char → Bool
  | [], sub => sub.isEmpty
  | c :: cs, sub => sub.isPrefixOf (c :: cs) || hasInfix cs sub

/-- Go `strings.Contains(s, substr)`. -/
def stringsContains (s substr : String) : Bool :=
  hasInfix s.data substr.data

/-! ## pkg/config/types.go -/

/-- Go `AppConfig`. -/
structure AppConfig where
  Name : String
  Version : String
  Environment : String
  Debug : Bool
  Port : Int
  deriving DecidableEq, Repr

/-- Go `DatabaseConfig`. -/
structure DatabaseConfig where
  Driver : String
  Host : String
  Port : Int
  Username : String
  Password : String
  Database : String
  Charset : String
  MaxOpenConns : Int
  MaxIdleConns : Int
  deriving DecidableEq, Repr

/-- Go `RedisConfig`. -/
structure RedisConfig where
  Host : String
  Port : Int
  Password : String
  Database : Int
  deriving DecidableEq, Repr

/-- Go `FileConfig` (shared shape of `config.FileConfig` and
`logger.FileConfig`). -/
structure FileConfig where
  Path : String
  MaxSize : Int
  MaxBackups : Int
  MaxAge : Int
  Compress : Bool
  deriving DecidableEq, Repr

/-- Go `LogConfig`. -/
structure LogConfig where
  Level : String
  Format : String
  Output : String
  File : FileConfig
  deriving DecidableEq, Repr

/-- Go `JWTConfig`; `ExpireTime` is a `time.Duration` in nanoseconds. -/
structure JWTConfig where
  Secret : String
  ExpireTime : Int
  Issuer : String
  deriving DecidableEq, Repr

/-- Go `Config`. -/
structure Config where
  App : AppConfig
  Database : DatabaseConfig
  Redis : RedisConfig
  Log : LogConfig
  JWT : JWTConfig
  deriving DecidableEq, Repr

/-- Go `time.Hour`, in nanoseconds. -/
def timeHour : Int := 3600000000000

/-! ## Errors -/

/-- One entry of `validator.ValidationErrors`: the namespace of the field, its
name, and the tag that failed. -/
structure FieldError where
  ns : String
  field : String
  tag : String
  deriving DecidableEq, Repr

/-- Go `error` values produced by the config package. -/
inductive Err where
  /-- `validator.ValidationErrors`: one entry per violated field. -/
  | fieldErrors (es : List FieldError)
  /-- `fmt.Errorf(msg)` without a wrapped error. -/
  | msg (s : String)
  /-- `fmt.Errorf(pre + ": %w", inner)`. -/
  | wrap (pre : String) (inner : Err)
  deriving DecidableEq, Repr

/-- The `Error()` text of one `validator.FieldError`. -/
def FieldError.Error (fe : FieldError) : String :=
  "Key: '" ++ fe.ns ++ "' Error:Field validation for '" ++ fe.field ++
    "' failed on the '" ++ fe.tag ++ "' tag"

/-- The `Error()` text of an error value. -/
def Err.Error : Err → String
  | .fieldErrors es => "\n".intercalate (es.map FieldError.Error)
  | .msg s => s
  | .wrap pre inner => pre ++ ": " ++ inner.Error

/-! ## pkg/config/loader.go -/

/-- Go `applyDefaults`: the twelve guarded assignments, in source order. -/
def applyDefaults (config : Config) : Config :=
  let config := if config.App.Port = 0 then
    { config with App := { config.App with Port := 8080 } } else config
  let config := if config.Database.Charset = "" then
    { config with Database := { config.Database with Charset := "utf8mb4" } } else config
  let config := if config.Database.MaxOpenConns = 0 then
    { config with Database := { config.Database with MaxOpenConns := 100 } } else config
  let config := if config.Database.MaxIdleConns = 0 then
    { config with Database := { config.Database with MaxIdleConns := 10 } } else config
  let config := if config.Log.Level = "" then
    { config with Log := { config.Log with Level := "info" } } else config
  let config := if config.Log.Format = "" then
    { config with Log := { config.Log with Format := "json" } } else config
  let config := if config.Log.Output = "" then
    { config with Log := { config.Log with Output := "stdout" } } else config
  let config := if config.Log.File.MaxSize = 0 then
    { config with Log := { config.Log with File := { config.Log.File with MaxSize := 100 } } }
    else config
  let config := if config.Log.File.MaxBackups = 0 then
    { config with Log := { config.Log with File := { config.Log.File with MaxBackups := 10 } } }
    else config
  let config := if config.Log.File.MaxAge = 0 then
    { config with Log := { config.Log with File := { config.Log.File with MaxAge := 30 } } }
    else config
  let config := if config.JWT.ExpireTime = 0 then
    { config with JWT := { config.JWT with ExpireTime := 24 * timeHour } } else config
  let config := if config.JWT.Issuer = "" then
    { config with JWT := { config.JWT with Issuer := "movieinfo" } } else config
  config

/-- The reference default-fill, field by field as the specification words it:
a zero-valued field takes its default, a populated field keeps its value, and
the fields without a default are copied. -/
def defaultFill (c : Config) : Config :=
  { App :=
      { Name := c.App.Name
        Version := c.App.Version
        Environment := c.App.Environment
        Debug := c.App.Debug
        Port := if c.App.Port = 0 then 8080 else c.App.Port }
    Database :=
      { Driver := c.Database.Driver
        Host := c.Database.Host
        Port := c.Database.Port
        Username := c.Database.Username
        Password := c.Database.Password
        Database := c.Database.Database
        Charset := if c.Database.Charset = "" then "utf8mb4" else c.Database.Charset
        MaxOpenConns := if c.Database.MaxOpenConns = 0 then 100 else c.Database.MaxOpenConns
        MaxIdleConns := if c.Database.MaxIdleConns = 0 then 10 else c.Database.MaxIdleConns }
    Redis := c.Redis
    Log :=
      { Level := if c.Log.Level = "" then "info" else c.Log.Level
        Format := if c.Log.Format = "" then "json" else c.Log.Format
        Output := if c.Log.Output = "" then "stdout" else c.Log.Output
        File :=
          { Path := c.Log.File.Path
            MaxSize := if c.Log.File.MaxSize = 0 then 100 else c.Log.File.MaxSize
            MaxBackups := if c.Log.File.MaxBackups = 0 then 10 else c.Log.File.MaxBackups
            MaxAge := if c.Log.File.MaxAge = 0 then 30 else c.Log.File.MaxAge
            Compress := c.Log.File.Compress } }
    JWT :=
      { Secret := c.JWT.Secret
        ExpireTime := if c.JWT.ExpireTime = 0 then 86400000000000 else c.JWT.ExpireTime
        Issuer := if c.JWT.Issuer = "" then "movieinfo" else c.JWT.Issuer } }

/-- The tags of one field, each paired with whether the value satisfies it, in
tag order. The validator reports the first tag that fails, and nothing when all
hold. -/
def checkTags (ns field : String) (tags : List (String × Bool)) : List FieldError :=
  match tags.find? (fun t => !t.2) with
  | some t => [{ ns := ns, field := field, tag := t.1 }]
  | none => []

/-- Tag `required` on a string field. -/
def reqStr (s : String) : String × Bool := ("required", s != "")

/-- Tag `required` on an integer field. -/
def reqInt (n : Int) : String × Bool := ("required", n != 0)

/-- Tag `min=k` on an integer field. -/
def minInt (k n : Int) : String × Bool := ("min", decide (k ≤ n))

/-- Tag `max=k` on an integer field. -/
def maxInt (k n : Int) : String × Bool := ("max", decide (n ≤ k))

/-- Tag `oneof=a b c` on a string field. -/
def oneOf (allowed : List String) (s : String) : String × Bool :=
  ("oneof", decide (s ∈ allowed))

/-- The static validation `validator.New().Struct(config)` as fixed by the
`validate` tags of types.go: every field of every nested struct is checked (the
validator descends into `Redis` and `Log.File` although they carry no tag of
their own), and the violations of all fields are collected in declaration
order. `required` on the struct-typed fields `App`, `Database`, `Log`, `JWT`
adds no check of its own in the validator's default mode. -/
def validateStruct (c : Config) : List FieldError :=
  checkTags "Config.App.Name" "Name" [reqStr c.App.Name] ++
  checkTags "Config.App.Version" "Version" [reqStr c.App.Version] ++
  checkTags "Config.App.Environment" "Environment"
    [reqStr c.App.Environment,
     oneOf ["development", "testing", "production"] c.App.Environment] ++
  checkTags "Config.App.Port" "Port"
    [reqInt c.App.Port, minInt 1 c.App.Port, maxInt 65535 c.App.Port] ++
  checkTags "Config.Database.Driver" "Driver" [reqStr c.Database.Driver] ++
  checkTags "Config.Database.Host" "Host" [reqStr c.Database.Host] ++
  checkTags "Config.Database.Port" "Port"
    [reqInt c.Database.Port, minInt 1 c.Database.Port, maxInt 65535 c.Database.Port] ++
  checkTags "Config.Database.Username" "Username" [reqStr c.Database.Username] ++
  checkTags "Config.Database.Database" "Database" [reqStr c.Database.Database] ++
  checkTags "Config.Database.MaxOpenConns" "MaxOpenConns" [minInt 1 c.Database.MaxOpenConns] ++
  checkTags "Config.Database.MaxIdleConns" "MaxIdleConns" [minInt 1 c.Database.MaxIdleConns] ++
  checkTags "Config.Redis.Host" "Host" [reqStr c.Redis.Host] ++
  checkTags "Config.Redis.Port" "Port"
    [reqInt c.Redis.Port, minInt 1 c.Redis.Port, maxInt 65535 c.Redis.Port] ++
  checkTags "Config.Redis.Database" "Database" [minInt 0 c.Redis.Database] ++
  checkTags "Config.Log.Level" "Level"
    [reqStr c.Log.Level, oneOf ["debug", "info", "warn", "error"] c.Log.Level] ++
  checkTags "Config.Log.Format" "Format"
    [reqStr c.Log.Format, oneOf ["json", "text"] c.Log.Format] ++
  checkTags "Config.Log.Output" "Output"
    [reqStr c.Log.Output, oneOf ["stdout", "stderr", "file"] c.Log.Output] ++
  checkTags "Config.Log.File.Path" "Path" [reqStr c.Log.File.Path] ++
  checkTags "Config.Log.File.MaxSize" "MaxSize" [minInt 1 c.Log.File.MaxSize] ++
  checkTags "Config.Log.File.MaxBackups" "MaxBackups" [minInt 0 c.Log.File.MaxBackups] ++
  checkTags "Config.Log.File.MaxAge" "MaxAge" [minInt 1 c.Log.File.MaxAge] ++
  checkTags "Config.JWT.ExpireTime" "ExpireTime" [reqInt c.JWT.ExpireTime] ++
  checkTags "Config.JWT.Issuer" "Issuer" [reqStr c.JWT.Issuer]

/-- Go `validateConfig`: static validation first, then the two business rules,
returning at the first failure. -/
def validateConfig (config : Config) : Option Err :=
  match validateStruct config with
  | e :: es => some (.wrap "config validation failed" (.fieldErrors (e :: es)))
  | [] =>
    if config.Database.Password = "" ∧ ¬ stringsContains config.App.Environment "test" then
      some (.msg "database password is required for non-test environments")
    else if config.JWT.Secret = "" then
      some (.msg "JWT secret is required")
    else
      none

/-- The viper calls of `LoadConfig` on one state of the outside world (the
files and the process environment): `readInConfig path` is the error of
`v.ReadInConfig()`, and `unmarshal path` the result of `v.Unmarshal(&config)`
after `bindEnvVars`. -/
structure Viper where
  readInConfig : String → Option Err
  unmarshal : String → Except Err Config

/-- Go `LoadConfig`. -/
def LoadConfig (v : Viper) (configPath : String) : Except Err Config :=
  match v.readInConfig configPath with
  | some err => .error (.wrap "failed to read config file" err)
  | none =>
    match v.unmarshal configPath with
    | .error err => .error (.wrap "failed to unmarshal config" err)
    | .ok raw =>
      let config := applyDefaults raw
      match validateConfig config with
      | some err => .error (.wrap "config validation failed" err)
      | none => .ok config

/-! ## pkg/config/manager.go -/

/-- Go `Manager`: the current snapshot and the path it was loaded from (the
lock carries no data). -/
structure Manager where
  config : Config
  configPath : String
  deriving DecidableEq, Repr

/-- Go `NewManager`. -/
def NewManager (v : Viper) (configPath : String) : Except Err Manager :=
  match LoadConfig v configPath with
  | .error err => .error (.wrap "failed to load config" err)
  | .ok config => .ok { config := config, configPath := configPath }

/-- Go `Manager.Get`. -/
def Manager.Get (m : Manager) : Config := m.config

/-- Go `Manager.Reload`: the manager after the call, the returned error, and
the lines printed to standard output. -/
def Manager.Reload (v : Viper) (m : Manager) : Manager × Option Err × List String :=
  match LoadConfig v m.configPath with
  | .error err => (m, some (.wrap "failed to reload config" err), [])
  | .ok newConfig =>
    ({ m with config := newConfig }, none, ["Config reloaded successfully"])

/-! ## pkg/config/utils.go -/

/-- Go `contains`: linear search of a string slice. -/
def contains : List String → String → Bool
  | [], _ => false
  | s :: rest, item => if s = item then true else contains rest item

/-- The `errors` slice built by Go `ValidateConfig`, in append order. `%d` is
rendered by `toString` on `Int`. -/
def ValidateConfig.errors (config : Config) : List String :=
  let errors : List String := []
  let errors := if config.JWT.Secret = "" then errors ++ ["JWT secret is required"] else errors
  let errors :=
    if config.Database.Password = "" ∧ ¬ stringsContains config.App.Environment "test" then
      errors ++ ["Database password is required for non-test environments"]
    else errors
  let ports := [config.App.Port, config.Database.Port, config.Redis.Port]
  let errors := ports.foldl
    (fun errors port =>
      if port < 1 ∨ port > 65535 then errors ++ ["Invalid port: " ++ toString port] else errors)
    errors
  let validLogLevels := ["debug", "info", "warn", "error"]
  let errors :=
    if ¬ contains validLogLevels config.Log.Level then
      errors ++ ["Invalid log level: " ++ config.Log.Level]
    else errors
  errors

/-- Go `ValidateConfig` (exported, utils.go): every violation is appended and
the joined list is returned as one error. -/
def ValidateConfig (config : Config) : Option Err :=
  let errors := ValidateConfig.errors config
  if errors.length > 0 then
    some (.msg ("config validation errors: " ++ ", ".intercalate errors))
  else
    none

/-! ## pkg/logger -/

namespace logger

/-- Go `Level` (`type Level int`). -/
abbrev Level := Int

def DebugLevel : Level := 0
def InfoLevel : Level := 1
def WarnLevel : Level := 2
def ErrorLevel : Level := 3

/-- Go `Level.String`. -/
def Level.String (l : Level) : String :=
  if l = DebugLevel then "DEBUG"
  else if l = InfoLevel then "INFO"
  else if l = WarnLevel then "WARN"
  else if l = ErrorLevel then "ERROR"
  else "INFO"

/-- Go `ParseLevel`. -/
def ParseLevel (level : String) : Level :=
  if level = "debug" ∨ level = "DEBUG" then DebugLevel
  else if level = "info" ∨ level = "INFO" then InfoLevel
  else if level = "warn" ∨ level = "WARN" ∨ level = "warning" ∨ level = "WARNING" then WarnLevel
  else if level = "error" ∨ level = "ERROR" then ErrorLevel
  else InfoLevel

/-- Go `logger.Config`. -/
structure Config where
  Level : String
  Format : String
  Output : String
  File : FileConfig
  deriving DecidableEq, Repr

/-- Go `DefaultConfig`. -/
def DefaultConfig : Config :=
  { Level := "info"
    Format := "json"
    Output := "stdout"
    File :=
      { Path := "logs/app.log", MaxSize := 100, MaxBackups := 10, MaxAge := 30, Compress := true } }

/-- A value of Go type `interface{}` attached to a log record. -/
inductive Value where
  | str (s : String)
  | int (i : Int)
  | bool (b : Bool)
  deriving DecidableEq, Repr

/-- The `io.Writer` chosen by `NewLogger`. -/
inductive Writer where
  | stdout
  | stderr
  | lumberjack (Filename : String) (MaxSize MaxBackups MaxAge : Int) (Compress : Bool)
  deriving DecidableEq, Repr

/-- The two `slog` handlers `NewLogger` builds. -/
inductive HandlerKind where
  | json
  | text
  deriving DecidableEq, Repr

/-- A `*slog.Logger` as built by `slog.New(handler)`: the handler's kind, its
writer and its `HandlerOptions.Level`. -/
structure SlogLogger where
  kind : HandlerKind
  writer : Writer
  level : Int
  deriving DecidableEq, Repr

def slogLevelDebug : Int := -4
def slogLevelInfo : Int := 0
def slogLevelWarn : Int := 4
def slogLevelError : Int := 8

/-- Go `convertLevel`. -/
def convertLevel (level : Level) : Int :=
  if level = DebugLevel then slogLevelDebug
  else if level = InfoLevel then slogLevelInfo
  else if level = WarnLevel then slogLevelWarn
  else if level = ErrorLevel then slogLevelError
  else slogLevelInfo

/-- A record handled by a `slog` handler (the timestamp is left out). -/
structure Record where
  handler : SlogLogger
  level : Int
  msg : String
  attrs : List (String × Value)
  deriving DecidableEq, Repr

/-- A Go `map[string]interface{}`: an association list without duplicate
keys. -/
abbrev Fields := AList (fun _ : String => Value)

/-- Go `SimpleLogger`: `fields` is the reference to the map object. -/
structure SimpleLogger where
  logger : SlogLogger
  level : Level
  fields : Nat
  deriving DecidableEq, Repr

/-- A value of the Go interface `Logger`: `none` is the nil interface, `some p`
holds the `*SimpleLogger` at address `p`. -/
abbrev Logger := Option Nat

/-- The memory of the logger package: the allocated map objects and
`SimpleLogger` objects (an address is an index), the package variable
`globalLogger`, and the records handled so far by any handler. -/
structure State where
  maps : List Fields
  loggers : List SimpleLogger
  globalLogger : Logger
  out : List Record

/-- The state of a process that has not touched the logger package. -/
def State.initial : State :=
  { maps := [], loggers := [], globalLogger := none, out := [] }

/-- Every `SimpleLogger` in memory refers to an allocated map, and
`globalLogger` is nil or the address of an allocated `SimpleLogger`. The
constructors of the package (`NewLogger`, `WithField`) only build such
memories. -/
def State.WellFormed (st : State) : Prop :=
  (∀ (p : Nat) (obj : SimpleLogger), st.loggers[p]? = some obj → obj.fields < st.maps.length) ∧
  (∀ p : Nat, st.globalLogger = some p → p < st.loggers.length)

/-- The outcome of a call: it returns, or the goroutine panics. -/
inductive Result (α : Type) where
  | ok (a : α)
  | panicked (reason : String)
  deriving Repr

/-- Run `f` on the value of a call that returned; a panic propagates. -/
def Result.bind {α β : Type} (r : Result α) (f : α → Result β) : Result β :=
  match r with
  | .ok a => f a
  | .panicked reason => .panicked reason

/-- The panic raised by a method call through a nil interface or pointer. -/
def nilDereference : String :=
  "runtime error: invalid memory address or nil pointer dereference"

/-- The map object behind a reference (a reference to nothing reads as the nil
map, which has no entries). -/
def State.fieldMap (st : State) (ref : Nat) : Fields :=
  st.maps.getD ref ∅

/-- Go `m[k] = v` on the map object at `ref`. -/
def State.mapAssign (st : State) (ref : Nat) (k : String) (v : Value) : State :=
  { st with maps := st.maps.set ref ((st.fieldMap ref).insert k v) }

/-- The key/value pairs visited by `for k, v := range m` on the map object at
`ref` (Go leaves the order unspecified; the representation order is used). -/
def State.range (st : State) (ref : Nat) : List (String × Value) :=
  (st.fieldMap ref).entries.map (fun e => (e.1, e.2))

/-- The calls `Debug`/`Info`/`Warn`/`Error` of `*slog.Logger` at a `slog`
level: the handler is asked whether the level is enabled and, if so, handles
the record. -/
def SlogLogger.log (lg : SlogLogger) (out : List Record) (level : Int) (msg : String)
    (args : List (String × Value)) : List Record :=
  if lg.level ≤ level then
    out ++ [{ handler := lg, level := level, msg := msg, attrs := args }]
  else
    out

/-- Go `NewLogger`: the new `SimpleLogger` with a fresh empty map. The error
result is always nil. -/
def NewLogger (st : State) (config : Config) : State × Logger × Option Err :=
  let writer : Writer :=
    if config.Output = "stdout" then .stdout
    else if config.Output = "stderr" then .stderr
    else if config.Output = "file" then
      .lumberjack config.File.Path config.File.MaxSize config.File.MaxBackups
        config.File.MaxAge config.File.Compress
    else .stdout
  let handler : SlogLogger :=
    if config.Format = "json" then
      { kind := .json, writer := writer, level := convertLevel (ParseLevel config.Level) }
    else
      { kind := .text, writer := writer, level := convertLevel (ParseLevel config.Level) }
  let obj : SimpleLogger :=
    { logger := handler, level := ParseLevel config.Level, fields := st.maps.length }
  ({ st with maps := st.maps ++ [∅], loggers := st.loggers ++ [obj] },
    some st.loggers.length, none)

/-- Go `(*SimpleLogger).log`. -/
def SimpleLogger.log (st : State) (l : Nat) (level : Level) (msg : String) : Result State :=
  match st.loggers[l]? with
  | none => .panicked nilDereference
  | some obj =>
    if level < obj.level then
      .ok st
    else
      let args := st.range obj.fields
      if level = DebugLevel then
        .ok { st with out := obj.logger.log st.out slogLevelDebug msg args }
      else if level = InfoLevel then
        .ok { st with out := obj.logger.log st.out slogLevelInfo msg args }
      else if level = WarnLevel then
        .ok { st with out := obj.logger.log st.out slogLevelWarn msg args }
      else if level = ErrorLevel then
        .ok { st with out := obj.logger.log st.out slogLevelError msg args }
      else
        .ok st

/-- Go `(*SimpleLogger).Debug`. -/
def SimpleLogger.Debug (st : State) (l : Nat) (msg : String) : Result State :=
  SimpleLogger.log st l DebugLevel msg

/-- Go `(*SimpleLogger).Info`. -/
def SimpleLogger.Info (st : State) (l : Nat) (msg : String) : Result State :=
  SimpleLogger.log st l InfoLevel msg

/-- Go `(*SimpleLogger).Warn`. -/
def SimpleLogger.Warn (st : State) (l : Nat) (msg : String) : Result State :=
  SimpleLogger.log st l WarnLevel msg

/-- Go `(*SimpleLogger).Error`. -/
def SimpleLogger.Error (st : State) (l : Nat) (msg : String) : Result State :=
  SimpleLogger.log st l ErrorLevel msg

/-- Go `fmt.Sprintf`, taken as given. -/
abbrev Sprintf := String → List Value → String

/-- Go `(*SimpleLogger).Debugf`. -/
def SimpleLogger.Debugf (sprintf : Sprintf) (st : State) (l : Nat) (format : String)
    (args : List Value) : Result State :=
  SimpleLogger.log st l DebugLevel (sprintf format args)

/-- Go `(*SimpleLogger).Infof`. -/
def SimpleLogger.Infof (sprintf : Sprintf) (st : State) (l : Nat) (format : String)
    (args : List Value) : Result State :=
  SimpleLogger.log st l InfoLevel (sprintf format args)

/-- Go `(*SimpleLogger).Warnf`. -/
def SimpleLogger.Warnf (sprintf : Sprintf) (st : State) (l : Nat) (format : String)
    (args : List Value) : Result State :=
  SimpleLogger.log st l WarnLevel (sprintf format args)

/-- Go `(*SimpleLogger).Errorf`. -/
def SimpleLogger.Errorf (sprintf : Sprintf) (st : State) (l : Nat) (format : String)
    (args : List Value) : Result State :=
  SimpleLogger.log st l ErrorLevel (sprintf format args)

/-- Go `(*SimpleLogger).WithField`: a new `SimpleLogger` and a new map are
allocated, the receiver's entries are copied into the new map, and the new key
is assigned last. -/
def SimpleLogger.WithField (st : State) (l : Nat) (key : String) (value : Value) :
    Result (State × Logger) :=
  match st.loggers[l]? with
  | none => .panicked nilDereference
  | some obj =>
    let newFields := st.maps.length
    let newLogger := st.loggers.length
    let st1 : State :=
      { st with
        maps := st.maps ++ [∅]
        loggers := st.loggers ++
          [{ logger := obj.logger, level := obj.level, fields := newFields }] }
    let st2 := (st1.range obj.fields).foldl (fun s kv => s.mapAssign newFields kv.1 kv.2) st1
    let st3 := st2.mapAssign newFields key value
    .ok (st3, some newLogger)

/-- Go `(*SimpleLogger).WithError`; `err` is `none` for a nil `error` and
`some s` for an error whose `Error()` is `s`. -/
def SimpleLogger.WithError (st : State) (l : Nat) (err : Option String) :
    Result (State × Logger) :=
  match err with
  | none => .panicked nilDereference
  | some s => SimpleLogger.WithField st l "error" (.str s)

/-- A method call `lg.m(...)` on a value of the interface `Logger`: it panics
on the nil interface and otherwise runs the `*SimpleLogger` method. -/
def Logger.call {α : Type} (lg : Logger) (method : Nat → Result α) : Result α :=
  match lg with
  | none => .panicked nilDereference
  | some p => method p

/-! ### global.go, init.go -/

/-- Go `InitGlobalLogger`. -/
def InitGlobalLogger (st : State) (config : Config) : State × Option Err :=
  match NewLogger st config with
  | (st1, _, some err) => (st1, some err)
  | (st1, lg, none) => ({ st1 with globalLogger := lg }, none)

/-- Go `GetGlobalLogger`. -/
def GetGlobalLogger (st : State) : Logger := st.globalLogger

/-- Go `logger.Debug`. -/
def Debug (st : State) (msg : String) : Result State :=
  if st.globalLogger ≠ none then
    Logger.call st.globalLogger (fun p => SimpleLogger.Debug st p msg)
  else .ok st

/-- Go `logger.Info`. -/
def Info (st : State) (msg : String) : Result State :=
  if st.globalLogger ≠ none then
    Logger.call st.globalLogger (fun p => SimpleLogger.Info st p msg)
  else .ok st

/-- Go `logger.Warn`. -/
def Warn (st : State) (msg : String) : Result State :=
  if st.globalLogger ≠ none then
    Logger.call st.globalLogger (fun p => SimpleLogger.Warn st p msg)
  else .ok st

/-- Go `logger.Error`. -/
def Error (st : State) (msg : String) : Result State :=
  if st.globalLogger ≠ none then
    Logger.call st.globalLogger (fun p => SimpleLogger.Error st p msg)
  else .ok st

/-- Go `logger.Debugf`. -/
def Debugf (sprintf : Sprintf) (st : State) (format : String) (args : List Value) :
    Result State :=
  if st.globalLogger ≠ none then
    Logger.call st.globalLogger (fun p => SimpleLogger.Debugf sprintf st p format args)
  else .ok st

/-- Go `logger.Infof`. -/
def Infof (sprintf : Sprintf) (st : State) (format : String) (args : List Value) :
    Result State :=
  if st.globalLogger ≠ none then
    Logger.call st.globalLogger (fun p => SimpleLogger.Infof sprintf st p format args)
  else .ok st

/-- Go `logger.Warnf`. -/
def Warnf (sprintf : Sprintf) (st : State) (format : String) (args : List Value) :
    Result State :=
  if st.globalLogger ≠ none then
    Logger.call st.globalLogger (fun p => SimpleLogger.Warnf sprintf st p format args)
  else .ok st

/-- Go `logger.Errorf`. -/
def Errorf (sprintf : Sprintf) (st : State) (format : String) (args : List Value) :
    Result State :=
  if st.globalLogger ≠ none then
    Logger.call st.globalLogger (fun p => SimpleLogger.Errorf sprintf st p format args)
  else .ok st

/-- Go `logger.WithField`: the nil `Logger` is returned while `globalLogger`
is nil. -/
def WithField (st : State) (key : String) (value : Value) : Result (State × Logger) :=
  if st.globalLogger ≠ none then
    Logger.call st.globalLogger (fun p => SimpleLogger.WithField st p key value)
  else .ok (st, none)

/-- Go `logger.WithError`. -/
def WithError (st : State) (err : Option String) : Result (State × Logger) :=
  if st.globalLogger ≠ none then
    Logger.call st.globalLogger (fun p => SimpleLogger.WithError st p err)
  else .ok (st, none)

/-- The calls of `Init` into the operating system: `filepath.Dir`, and the
error result of `os.MkdirAll(dir, 0755)`. -/
structure Sys where
  dir : String → String
  mkdirAll : String → Option Err

/-- Go `Init`. -/
def Init (sys : Sys) (st : State) (config : Config) : State × Option Err :=
  if config.Output = "file" then
    match sys.mkdirAll (sys.dir config.File.Path) with
    | some err => (st, some (.wrap "failed to create log directory" err))
    | none => InitGlobalLogger st config
  else
    InitGlobalLogger st config

/-! ### The level names of the specification -/

/-- The four level names, in the order the specification gives them:
debug < info < warn < error. -/
inductive LevelName where
  | debug
  | info
  | warn
  | error
  deriving DecidableEq, Repr

/-- The position of a level name in the ordering debug < info < warn < error. -/
def LevelName.rank : LevelName → Nat
  | .debug => 0
  | .info => 1
  | .warn => 2
  | .error => 3

/-- The configuration string that names a level. -/
def LevelName.name : LevelName → String
  | .debug => "debug"
  | .info => "info"
  | .warn => "warn"
  | .error => "error"

/-- The record level of a level name, as passed to `(*SimpleLogger).log`. -/
def LevelName.level : LevelName → Level
  | .debug => DebugLevel
  | .info => InfoLevel
  | .warn => WarnLevel
  | .error => ErrorLevel

/-- The emitting method of `SimpleLogger` that bears a level name. -/
def LevelName.method : LevelName → State → Nat → String → Result State
  | .debug => SimpleLogger.Debug
  | .info => SimpleLogger.Info
  | .warn => SimpleLogger.Warn
  | .error => SimpleLogger.Error

/-- The `slog` level a handled record of a level name carries: `slog.LevelDebug`
is -4, `slog.LevelInfo` 0, `slog.LevelWarn` 4 and `slog.LevelError` 8. -/
def LevelName.slog : LevelName → Int
  | .debug => -4
  | .info => 0
  | .warn => 4
  | .error => 8

end logger

/-! ## pkg/config/manager.go: derived accessors -/

/-- An operand of `fmt.Sprintf`: a string or an integer. -/
inductive FmtArg where
  | str (s : String)
  | int (i : Int)
  deriving DecidableEq, Repr

/-- The scan of a `fmt.Sprintf` format; `pending` says that the previous
character was `%`. The directives `%s` on a string operand and `%d` on an
integer operand are formatted as Go does (the string itself, the decimal
numeral); any other directive is outside this fragment and is copied as it
stands. -/
def fmtScan (pending : Bool) : List Char → List FmtArg → List Char
  | [], _ => if pending then ['%'] else []
  | c :: rest, args =>
    if pending then
      match args with
      | .str s :: args' =>
        if c = 's' then s.data ++ fmtScan false rest args'
        else '%' :: c :: fmtScan false rest args
      | .int i :: args' =>
        if c = 'd' then (toString i).data ++ fmtScan false rest args'
        else '%' :: c :: fmtScan false rest args
      | [] => '%' :: c :: fmtScan false rest args
    else if c = '%' then fmtScan true rest args
    else c :: fmtScan false rest args

/-- Go `fmt.Sprintf` on the fragment described at `fmtScan`. -/
def fmtSprintf (format : String) (args : List FmtArg) : String :=
  String.mk (fmtScan false format.data args)

/-- Go `Manager.GetDSN`. -/
def Manager.GetDSN (m : Manager) : String :=
  let config := m.Get
  let db := config.Database
  fmtSprintf "%s:%s@tcp(%s:%d)/%s?charset=%s"
    [.str db.Username, .str db.Password, .str db.Host, .int db.Port, .str db.Database,
     .str db.Charset]

/-- Go `Manager.GetRedisAddr`. -/
def Manager.GetRedisAddr (m : Manager) : String :=
  let config := m.Get
  fmtSprintf "%s:%d" [.str config.Redis.Host, .int config.Redis.Port]

/-- Go `Manager.IsProduction`. -/
def Manager.IsProduction (m : Manager) : Bool :=
  m.Get.App.Environment == "production"

/-- Go `Manager.IsDevelopment`. -/
def Manager.IsDevelopment (m : Manager) : Bool :=
  m.Get.App.Environment == "development"

/-- Go `Manager.IsTesting`. -/
def Manager.IsTesting (m : Manager) : Bool :=
  m.Get.App.Environment == "testing"

/-- The connection string as the specification writes it:
`<Username>:<Password>@tcp(<Host>:<Port>)/<Database>?charset=<Charset>` built
from the datastore section of a snapshot. -/
def dsnOf (c : Config) : String :=
  c.Database.Username ++ ":" ++ c.Database.Password ++ "@tcp(" ++ c.Database.Host ++ ":" ++
    toString c.Database.Port ++ ")/" ++ c.Database.Database ++ "?charset=" ++
    c.Database.Charset

/-- The cache address as the specification writes it: `<Host>:<Port>` built
from the cache section of a snapshot. -/
def redisAddrOf (c : Config) : String :=
  c.Redis.Host ++ ":" ++ toString c.Redis.Port

/-- The error list of `ValidateConfig` as the specification of the exported
validator words it: the signing-secret entry, the datastore-credential entry,
one `Invalid port` entry for each of the three ports outside [1, 65535], and
the log-level entry, in this order. -/
def expectedErrors (c : Config) : List String :=
  (if c.JWT.Secret = "" then ["JWT secret is required"] else []) ++
  (if c.Database.Password = "" ∧ stringsContains c.App.Environment "test" = false then
    ["Database password is required for non-test environments"] else []) ++
  (([c.App.Port, c.Database.Port, c.Redis.Port].filter
      (fun p => decide (¬ (1 ≤ p ∧ p ≤ 65535)))).map
    (fun p => "Invalid port: " ++ toString p)) ++
  (if c.Log.Level ∈ ["debug", "info", "warn", "error"] then []
    else ["Invalid log level: " ++ c.Log.Level])

/-! ## viper as configured by `LoadConfig`

`LoadConfig` sets the prefix `MOVIEINFO`, calls `AutomaticEnv`, installs the
replacer of `.` by `_`, reads the file and binds three keys to environment
variables. What follows is the lookup that viper then performs for each key
when `Unmarshal` collects the settings, and the decoding of the settings into
`Config`. -/

/-- An integer scalar of the configuration file that the YAML parser keeps as an
integer: a Go `int` or, above its range, a `uint64`. (A numeral outside this
range is read as a floating-point number and is outside the model.) -/
abbrev YamlInt := { i : Int // -9223372036854775808 ≤ i ∧ i ≤ 18446744073709551615 }

/-- A scalar value of the parsed configuration file, or the string value of an
environment variable. -/
inductive Raw where
  | str (s : String)
  | int (i : YamlInt)
  | bool (b : Bool)
  deriving DecidableEq, Repr

/-- The configuration files: the result of reading and parsing the file at a
path, as the list of its leaf keys (lower-cased, joined by `.`) with their
scalar values. -/
abbrev Files := String → Except Err (List (String × Raw))

/-- The process environment, as `os.LookupEnv` sees it. -/
abbrev Environ := String → Option String

/-- What decoding takes from libraries, as given: the integer that
`strconv.ParseInt(s, 0, 64)` reads in a numeral (`none` when it rejects the
syntax), the nanoseconds `time.ParseDuration` returns (`none` when it fails),
and the error value `Unmarshal` returns for settings it cannot decode. -/
structure Lib where
  parseInt : String → Option Int
  parseDuration : String → Option Int
  unmarshalError : List (String × Raw) → Err

/-- Go `strings.ToUpper`. -/
def stringsToUpper (s : String) : String :=
  String.mk (s.data.map Char.toUpper)

/-- The replacer installed by `SetEnvKeyReplacer(strings.NewReplacer(".", "_"))`. -/
def envKeyReplacer (s : String) : String :=
  String.mk (s.data.map (fun c => if c = '.' then '_' else c))

/-- The prefix set by `SetEnvPrefix("MOVIEINFO")`. -/
def envPrefix : String := "MOVIEINFO"

/-- Viper `mergeWithEnvPrefix`: the upper-cased key behind the prefix. -/
def mergeWithEnvPrefix (key : String) : String :=
  stringsToUpper (envPrefix ++ "_" ++ key)

/-- The name of the environment variable that `AutomaticEnv` reads for a key:
`MOVIEINFO_LOG_LEVEL` for `log.level`. -/
def envName (key : String) : String :=
  envKeyReplacer (mergeWithEnvPrefix key)

/-- Viper `getEnv`: the replacer is applied to the name, and a variable that is
unset or empty counts as absent. -/
def getEnv (env : Environ) (name : String) : Option String :=
  match env (envKeyReplacer name) with
  | some v => if v = "" then none else some v
  | none => none

/-- Go `bindEnvVars`: the keys bound to an explicit variable name. -/
def bindEnvVars : List (String × String) :=
  [("database.password", "MOVIEINFO_DATABASE_PASSWORD"),
   ("redis.password", "MOVIEINFO_REDIS_PASSWORD"),
   ("jwt.secret", "MOVIEINFO_JWT_SECRET")]

/-- The segments of a character list cut at each `.`. -/
def splitDots : List Char → List (List Char)
  | [] => [[]]
  | c :: rest =>
    if c = '.' then [] :: splitDots rest
    else
      match splitDots rest with
      | [] => [[c]]
      | seg :: segs => (c :: seg) :: segs

/-- The proper parent paths of a key: `log.file.path` has the parents `log` and
`log.file`. -/
def parentKeys (key : String) : List String :=
  let path := splitDots key.data
  (List.range path.length).tail.map
    (fun i => String.mk (List.intercalate ['.'] (path.take i)))

/-- Viper `isPathShadowedInAutoEnv`: some parent path of the key has its own
environment variable set. -/
def isPathShadowedInAutoEnv (env : Environ) (key : String) : Bool :=
  (parentKeys key).any (fun p => (getEnv env (mergeWithEnvPrefix p)).isSome)

/-- Viper `isPathShadowedInFlatMap` on the bound keys: some parent path of the
key is itself a bound key. -/
def isPathShadowedInFlatMap (key : String) : Bool :=
  (parentKeys key).any (fun p => decide (p ∈ bindEnvVars.map Prod.fst))

/-- Viper `find` with `AutomaticEnv` on and no overrides, flags, key/value
store or defaults: the variable derived from the key wins, then a set variable
of a parent path hides the key, then the variables bound to the key, then a
bound parent path hides the key, then the file. -/
def viperFind (env : Environ) (file : List (String × Raw)) (key : String) : Option Raw :=
  match getEnv env (mergeWithEnvPrefix key) with
  | some v => some (.str v)
  | none =>
    if isPathShadowedInAutoEnv env key then none
    else
      match (bindEnvVars.filter (fun b => b.1 = key)).findSome? (fun b => getEnv env b.2) with
      | some v => some (.str v)
      | none => if isPathShadowedInFlatMap key then none else file.lookup key

/-- Viper `AllKeys`: the bound keys, and the leaf keys of the file that do not
lie below a bound key. -/
def viperAllKeys (file : List (String × Raw)) : List String :=
  bindEnvVars.map Prod.fst ++
    (file.map Prod.fst).filter (fun k => !isPathShadowedInFlatMap k)

/-- Viper `AllSettings`: every known key that has a value, with that value. -/
def viperAllSettings (env : Environ) (file : List (String × Raw)) : List (String × Raw) :=
  (viperAllKeys file).filterMap (fun k => (viperFind env file k).map (fun v => (k, v)))

/-- The conversion of an integer to a Go `int` (64 bits, two's complement). -/
def wrapInt64 (i : Int) : Int :=
  (i + 9223372036854775808) % 18446744073709551616 - 9223372036854775808

/-- Whether an integer is a value of Go `int64`. -/
def inInt64 (i : Int) : Bool :=
  decide (-9223372036854775808 ≤ i ∧ i ≤ 9223372036854775807)

/-- The decoding of a value into a Go `string` with weakly typed input; it
cannot fail on a scalar. -/
def decodeString (v : Option Raw) : String :=
  match v with
  | none => ""
  | some (.str s) => s
  | some (.int i) => toString i.val
  | some (.bool b) => if b then "1" else "0"

/-- The decoding of a value into a Go `int` with weakly typed input (`none` is
a decoding error): an integer of the file is converted, a string is parsed and
must fit 64 bits. -/
def decodeInt (lib : Lib) (v : Option Raw) : Option Int :=
  match v with
  | none => some 0
  | some (.int i) => some (wrapInt64 i.val)
  | some (.bool b) => some (if b then 1 else 0)
  | some (.str s) =>
    match lib.parseInt (if s = "" then "0" else s) with
    | some i => if inInt64 i then some i else none
    | none => none

/-- Go `strconv.ParseBool`. -/
def parseBool (s : String) : Option Bool :=
  if s ∈ ["1", "t", "T", "TRUE", "true", "True"] then some true
  else if s ∈ ["0", "f", "F", "FALSE", "false", "False"] then some false
  else none

/-- The decoding of a value into a Go `bool` with weakly typed input (`none` is
a decoding error). -/
def decodeBool (v : Option Raw) : Option Bool :=
  match v with
  | none => some false
  | some (.bool b) => some b
  | some (.int i) => some (decide (i.val ≠ 0))
  | some (.str s) =>
    match parseBool s with
    | some b => some b
    | none => if s = "" then some false else none

/-- The decoding of a value into a `time.Duration` (`none` is a decoding
error): a string goes through the duration hook, anything else is decoded as an
integer of nanoseconds. -/
def decodeDuration (lib : Lib) (v : Option Raw) : Option Int :=
  match v with
  | some (.str s) =>
    match lib.parseDuration s with
    | some d => if inInt64 d then some d else none
    | none => none
  | other => decodeInt lib other

/-- The keys at which `Config` holds a nested struct. -/
def sectionKeys : List String :=
  ["app", "database", "redis", "log", "log.file", "jwt"]

/-- The keys at which `Config` holds a scalar field. The decoder matches a key
to a struct field by the field's Go name, ignoring case (the `yaml` tags are not
consulted), so field `F` of section `s` has the key `s.f`. -/
def leafKeys : List String :=
  ["app.name", "app.version", "app.environment", "app.debug", "app.port",
   "database.driver", "database.host", "database.port", "database.username",
   "database.password", "database.database", "database.charset",
   "database.maxopenconns", "database.maxidleconns",
   "redis.host", "redis.port", "redis.password", "redis.database",
   "log.level", "log.format", "log.output",
   "log.file.path", "log.file.maxsize", "log.file.maxbackups", "log.file.maxage",
   "log.file.compress",
   "jwt.secret", "jwt.expiretime", "jwt.issuer"]

/-- Whether a key puts a value of the wrong shape at a field: a scalar where
`Config` holds a struct, or a key below a scalar field (a map where `Config`
holds a scalar). -/
def misplaced (key : String) : Bool :=
  decide (key ∈ sectionKeys) || (parentKeys key).any (fun p => decide (p ∈ leafKeys))

/-- The decoding of the scalar fields of `Config` from the settings, field by
field; keys that match no field are ignored and fields without a key keep their
zero value. `none` when some field fails to decode. -/
def decodeFields (lib : Lib) (settings : List (String × Raw)) : Option Config := do
  let appDebug ← decodeBool (settings.lookup "app.debug")
  let appPort ← decodeInt lib (settings.lookup "app.port")
  let dbPort ← decodeInt lib (settings.lookup "database.port")
  let dbMaxOpenConns ← decodeInt lib (settings.lookup "database.maxopenconns")
  let dbMaxIdleConns ← decodeInt lib (settings.lookup "database.maxidleconns")
  let redisPort ← decodeInt lib (settings.lookup "redis.port")
  let redisDatabase ← decodeInt lib (settings.lookup "redis.database")
  let fileMaxSize ← decodeInt lib (settings.lookup "log.file.maxsize")
  let fileMaxBackups ← decodeInt lib (settings.lookup "log.file.maxbackups")
  let fileMaxAge ← decodeInt lib (settings.lookup "log.file.maxage")
  let fileCompress ← decodeBool (settings.lookup "log.file.compress")
  let jwtExpireTime ← decodeDuration lib (settings.lookup "jwt.expiretime")
  return {
    App := { Name := decodeString (settings.lookup "app.name")
             Version := decodeString (settings.lookup "app.version")
             Environment := decodeString (settings.lookup "app.environment")
             Debug := appDebug
             Port := appPort }
    Database := { Driver := decodeString (settings.lookup "database.driver")
                  Host := decodeString (settings.lookup "database.host")
                  Port := dbPort
                  Username := decodeString (settings.lookup "database.username")
                  Password := decodeString (settings.lookup "database.password")
                  Database := decodeString (settings.lookup "database.database")
                  Charset := decodeString (settings.lookup "database.charset")
                  MaxOpenConns := dbMaxOpenConns
                  MaxIdleConns := dbMaxIdleConns }
    Redis := { Host := decodeString (settings.lookup "redis.host")
               Port := redisPort
               Password := decodeString (settings.lookup "redis.password")
               Database := redisDatabase }
    Log := { Level := decodeString (settings.lookup "log.level")
             Format := decodeString (settings.lookup "log.format")
             Output := decodeString (settings.lookup "log.output")
             File := { Path := decodeString (settings.lookup "log.file.path")
                       MaxSize := fileMaxSize
                       MaxBackups := fileMaxBackups
                       MaxAge := fileMaxAge
                       Compress := fileCompress } }
    JWT := { Secret := decodeString (settings.lookup "jwt.secret")
             ExpireTime := jwtExpireTime
             Issuer := decodeString (settings.lookup "jwt.issuer") } }

/-- Viper `Unmarshal` into `Config`: it fails when a setting has the wrong
shape for its field or a field fails to decode, and otherwise yields the
decoded fields. The error value is the library's. -/
def viperDecode (lib : Lib) (settings : List (String × Raw)) : Except Err Config :=
  if settings.any (fun kv => misplaced kv.1) then .error (lib.unmarshalError settings)
  else
    match decodeFields lib settings with
    | some config => .ok config
    | none => .error (lib.unmarshalError settings)

/-- The viper instance of `LoadConfig` on given files and a given process
environment: `ReadInConfig` fails when the file cannot be read or parsed, and
`Unmarshal` decodes the settings collected from the environment and the file. -/
def viperOf (lib : Lib) (files : Files) (env : Environ) : Viper :=
  { readInConfig := fun path =>
      match files path with
      | .error err => some err
      | .ok _ => none
    unmarshal := fun path =>
      match files path with
      | .error err => .error err
      | .ok file => viperDecode lib (viperAllSettings env file) }

/-- The names on which `getEnv` is consulted by the environment tier of the
lookup of one key: the variable derived from the key and those of its parent
paths. -/
def namesFor (key : String) : List String :=
  mergeWithEnvPrefix key :: (parentKeys key).map mergeWithEnvPrefix

/-- The names on which `getEnv` is consulted while the settings of a file are
collected: those of every known key, and the bound variables. -/
def consultedNames (file : List (String × Raw)) : List String :=
  (viperAllKeys file).flatMap namesFor ++ bindEnvVars.map Prod.snd

/-- The names consulted for the known keys other than the three bound keys. -/
def otherNames (file : List (String × Raw)) : List String :=
  ((viperAllKeys file).filter (fun k => decide (k ∉ bindEnvVars.map Prod.fst))).flatMap
    namesFor

/-- A snapshot with `Database.Password`, `Redis.Password` and `JWT.Secret`
blanked: two snapshots agree on every other field exactly when these
coincide. -/
def offCredentials (c : Config) : Config :=
  { c with
    Database := { c.Database with Password := "" }
    Redis := { c.Redis with Password := "" }
    JWT := { c.JWT with Secret := "" } }

/-- The derived accessors of a manager read as the specification writes them
from the snapshot `c`: `Get` returns `c`, the connection string and the cache
address are built from `c`, and each environment predicate holds exactly when
`c.App.Environment` is the corresponding tag. -/
def AccessorsOf (m : Manager) (c : Config) : Prop :=
  m.Get = c ∧ m.GetDSN = dsnOf c ∧ m.GetRedisAddr = redisAddrOf c ∧
  (m.IsProduction = true ↔ c.App.Environment = "production") ∧
  (m.IsDevelopment = true ↔ c.App.Environment = "development") ∧
  (m.IsTesting = true ↔ c.App.Environment = "testing")

/-! ## Snapshot invariants and sample inputs -/

/-- The zero value of Go `AppConfig`. -/
def AppConfig.zero : AppConfig :=
  { Name := "", Version := "", Environment := "", Debug := false, Port := 0 }

/-- The zero value of Go `DatabaseConfig`. -/
def DatabaseConfig.zero : DatabaseConfig :=
  { Driver := "", Host := "", Port := 0, Username := "", Password := "", Database := "",
    Charset := "", MaxOpenConns := 0, MaxIdleConns := 0 }

/-- The zero value of Go `FileConfig`. -/
def FileConfig.zero : FileConfig :=
  { Path := "", MaxSize := 0, MaxBackups := 0, MaxAge := 0, Compress := false }

/-- The zero value of Go `LogConfig`. -/
def LogConfig.zero : LogConfig :=
  { Level := "", Format := "", Output := "", File := FileConfig.zero }

/-- The zero value of Go `JWTConfig`. -/
def JWTConfig.zero : JWTConfig :=
  { Secret := "", ExpireTime := 0, Issuer := "" }

/-- What the `validate` tags of types.go ask of each field. -/
def StaticOK (c : Config) : Prop :=
  (c.App.Name ≠ "" ∧ c.App.Version ≠ "" ∧ c.App.Environment ≠ "" ∧
    c.App.Environment ∈ ["development", "testing", "production"] ∧
    c.App.Port ≠ 0 ∧ 1 ≤ c.App.Port ∧ c.App.Port ≤ 65535) ∧
  (c.Database.Driver ≠ "" ∧ c.Database.Host ≠ "" ∧ c.Database.Port ≠ 0 ∧
    1 ≤ c.Database.Port ∧ c.Database.Port ≤ 65535 ∧ c.Database.Username ≠ "" ∧
    c.Database.Database ≠ "" ∧ 1 ≤ c.Database.MaxOpenConns ∧ 1 ≤ c.Database.MaxIdleConns) ∧
  (c.Redis.Host ≠ "" ∧ c.Redis.Port ≠ 0 ∧ 1 ≤ c.Redis.Port ∧ c.Redis.Port ≤ 65535 ∧
    0 ≤ c.Redis.Database) ∧
  (c.Log.Level ≠ "" ∧ c.Log.Level ∈ ["debug", "info", "warn", "error"] ∧
    c.Log.Format ≠ "" ∧ c.Log.Format ∈ ["json", "text"] ∧
    c.Log.Output ≠ "" ∧ c.Log.Output ∈ ["stdout", "stderr", "file"] ∧
    c.Log.File.Path ≠ "" ∧ 1 ≤ c.Log.File.MaxSize ∧ 0 ≤ c.Log.File.MaxBackups ∧
    1 ≤ c.Log.File.MaxAge) ∧
  (c.JWT.ExpireTime ≠ 0 ∧ c.JWT.Issuer ≠ "")

/-- Every field carrying the tag `required` in types.go holds a non-zero
value. -/
def RequiredNonZero (c : Config) : Prop :=
  c.App ≠ AppConfig.zero ∧ c.Database ≠ DatabaseConfig.zero ∧ c.Log ≠ LogConfig.zero ∧
  c.JWT ≠ JWTConfig.zero ∧
  c.App.Name ≠ "" ∧ c.App.Version ≠ "" ∧ c.App.Environment ≠ "" ∧ c.App.Port ≠ 0 ∧
  c.Database.Driver ≠ "" ∧ c.Database.Host ≠ "" ∧ c.Database.Port ≠ 0 ∧
  c.Database.Username ≠ "" ∧ c.Database.Database ≠ "" ∧
  c.Redis.Host ≠ "" ∧ c.Redis.Port ≠ 0 ∧
  c.Log.Level ≠ "" ∧ c.Log.Format ≠ "" ∧ c.Log.Output ≠ "" ∧ c.Log.File.Path ≠ "" ∧
  c.JWT.ExpireTime ≠ 0 ∧ c.JWT.Issuer ≠ ""

/-- The snapshot invariants of the data model: port ranges, enumerated fields,
required fields, and the two business rules. -/
def SnapshotInvariant (c : Config) : Prop :=
  (1 ≤ c.App.Port ∧ c.App.Port ≤ 65535) ∧
  (1 ≤ c.Database.Port ∧ c.Database.Port ≤ 65535) ∧
  (1 ≤ c.Redis.Port ∧ c.Redis.Port ≤ 65535) ∧
  c.App.Environment ∈ ["development", "testing", "production"] ∧
  c.Log.Level ∈ ["debug", "info", "warn", "error"] ∧
  c.Log.Format ∈ ["json", "text"] ∧
  c.Log.Output ∈ ["stdout", "stderr", "file"] ∧
  RequiredNonZero c ∧
  c.JWT.Secret ≠ "" ∧
  (stringsContains c.App.Environment "test" = false → c.Database.Password ≠ "")

/-- A configuration file's content after unmarshalling: every field without a
default is given, the defaulted fields are left out, and the datastore
credential and signing secret are as passed. -/
def sampleRaw (environment password secret : String) : Config :=
  { App := { Name := "movieinfo", Version := "1.0.0", Environment := environment,
             Debug := false, Port := 0 }
    Database := { Driver := "mysql", Host := "localhost", Port := 3306, Username := "root",
                  Password := password, Database := "movieinfo", Charset := "",
                  MaxOpenConns := 0, MaxIdleConns := 0 }
    Redis := { Host := "localhost", Port := 6379, Password := "", Database := 0 }
    Log := { Level := "", Format := "", Output := "",
             File := { Path := "logs/app.log", MaxSize := 0, MaxBackups := 0, MaxAge := 0,
                       Compress := true } }
    JWT := { Secret := secret, ExpireTime := 0, Issuer := "" } }

/-- A world in which every path holds the same readable, well-formed file. -/
def sampleViper (raw : Config) : Viper :=
  { readInConfig := fun _ => none, unmarshal := fun _ => .ok raw }

/-- A logger configuration with threshold `warn`, JSON on standard output. -/
def warnConfig : logger.Config :=
  { logger.DefaultConfig with Level := "warn" }

/-- A logger configuration with threshold `debug`, JSON on standard output. -/
def debugConfig : logger.Config :=
  { logger.DefaultConfig with Level := "debug" }

/-- An operating system on which every directory can be created. -/
def sampleSys : logger.Sys :=
  { dir := fun p => p, mkdirAll := fun _ => none }

/-- A `SimpleLogger` with threshold `info` writing JSON to standard output,
whose map is the object at address 0. -/
def sampleLogger : logger.SimpleLogger :=
  { logger := { kind := .json, writer := .stdout, level := logger.slogLevelInfo }
    level := logger.InfoLevel
    fields := 0 }

/-- A memory holding `sampleLogger` at address 0 with the single field
`request_id`. -/
def sampleState : logger.State :=
  { maps := [(∅ : logger.Fields).insert "request_id" (.str "req-123")]
    loggers := [sampleLogger]
    globalLogger := some 0
    out := [] }

/-- A configuration file with every section filled in. -/
def sampleFile : List (String × Raw) :=
  [("app.name", .str "movieinfo"), ("app.version", .str "1.0.0"),
   ("app.environment", .str "production"), ("app.debug", .bool false),
   ("app.port", .int ⟨8080, by decide⟩),
   ("database.driver", .str "mysql"), ("database.host", .str "localhost"),
   ("database.port", .int ⟨3306, by decide⟩), ("database.username", .str "root"),
   ("database.password", .str "x"), ("database.database", .str "movieinfo"),
   ("redis.host", .str "localhost"), ("redis.port", .int ⟨6379, by decide⟩),
   ("log.level", .str "info"), ("log.format", .str "json"), ("log.output", .str "stdout"),
   ("log.file.path", .str "logs/app.log"),
   ("jwt.secret", .str "s3cret"), ("jwt.issuer", .str "movieinfo")]

/-- Files in which every path holds `sampleFile`. -/
def sampleFiles : Files := fun _ => .ok sampleFile

/-- The snapshot that `sampleFile` loads to, up to the log level, the listen
port and the datastore credential. -/
def sampleSnapshot (level : String) (port : Int) (password : String) : Config :=
  { App := { Name := "movieinfo", Version := "1.0.0", Environment := "production",
             Debug := false, Port := port }
    Database := { Driver := "mysql", Host := "localhost", Port := 3306, Username := "root",
                  Password := password, Database := "movieinfo", Charset := "utf8mb4",
                  MaxOpenConns := 100, MaxIdleConns := 10 }
    Redis := { Host := "localhost", Port := 6379, Password := "", Database := 0 }
    Log := { Level := level, Format := "json", Output := "stdout",
             File := { Path := "logs/app.log", MaxSize := 100, MaxBackups := 10, MaxAge := 30,
                       Compress := false } }
    JWT := { Secret := "s3cret", ExpireTime := 86400000000000, Issuer := "movieinfo" } }

/-- The empty process environment. -/
def emptyEnviron : Environ := fun _ => none

/-- A process environment that sets `MOVIEINFO_LOG_LEVEL` and nothing else. -/
def logLevelEnviron : Environ := fun name =>
  if name = "MOVIEINFO_LOG_LEVEL" then some "debug" else none

/-- A process environment that sets `MOVIEINFO_LOG_LEVEL` and
`MOVIEINFO_APP_PORT` and nothing else. -/
def overridingEnviron : Environ := fun name =>
  if name = "MOVIEINFO_LOG_LEVEL" then some "debug"
  else if name = "MOVIEINFO_APP_PORT" then some "9090"
  else none

/-- A process environment that sets only `MOVIEINFO_DATABASE_PASSWORD`. -/
def passwordEnviron : Environ := fun name =>
  if name = "MOVIEINFO_DATABASE_PASSWORD" then some "y" else none

/-- A world in which no configuration file can be read. -/
def brokenViper : Viper :=
  { readInConfig := fun _ => some (.msg "open config.yaml: no such file or directory")
    unmarshal := fun _ => .error (.msg "no config") }

/-! # Theorems -/

/-! ## Supporting lemmas -/

theorem hasInfix_iff (s sub : List Char) : hasInfix s sub = true ↔ sub <:+: s := by
  induction s with
  | nil => cases sub <;> simp [hasInfix]
  | cons c cs ih =>
    simp only [hasInfix, Bool.or_eq_true, ih, List.isPrefixOf_iff_prefix, List.infix_cons_iff]

/-- `stringsContains` holds exactly when the needle is a contiguous block of
the string. -/
theorem stringsContains_iff (s sub : String) :
    stringsContains s sub = true ↔ sub.data <:+: s.data :=
  hasInfix_iff s.data sub.data

theorem checkTags_eq_nil (ns field : String) (tags : List (String × Bool)) :
    checkTags ns field tags = [] ↔ ∀ t ∈ tags, t.2 = true := by
  unfold checkTags
  cases h : tags.find? (fun t => !t.2) with
  | none =>
    simp only [true_iff]
    intro t ht
    have := List.find?_eq_none.mp h t ht
    simpa using this
  | some t =>
    simp only [false_iff, reduceCtorEq]
    intro hall
    have h1 := List.find?_some h
    have h2 := hall t (List.mem_of_find?_eq_some h)
    simp [h2] at h1

/-- The static validation reports nothing exactly when every tag holds. -/
theorem validateStruct_eq_nil_iff (c : Config) : validateStruct c = [] ↔ StaticOK c := by
  simp only [validateStruct, List.append_eq_nil, checkTags_eq_nil, reqStr, reqInt, minInt,
    maxInt, oneOf, List.mem_cons, List.mem_singleton, forall_eq_or_imp, forall_eq,
    List.not_mem_nil, bne_iff_ne, ne_eq, decide_eq_true_eq, IsEmpty.forall_iff, implies_true,
    and_true, and_assoc, StaticOK, or_false]

/-- The loader's `validateConfig` accepts a configuration exactly when the
static validation is clean and both business rules hold. -/
theorem validateConfig_eq_none_iff (c : Config) :
    validateConfig c = none ↔
      validateStruct c = [] ∧
      ¬ (c.Database.Password = "" ∧ stringsContains c.App.Environment "test" = false) ∧
      c.JWT.Secret ≠ "" := by
  unfold validateConfig
  cases hs : validateStruct c with
  | cons e es => simp
  | nil =>
    by_cases hp : c.Database.Password = "" ∧ ¬ stringsContains c.App.Environment "test" = true
    · have hp' := hp
      simp only [Bool.not_eq_true] at hp'
      simp [hp, hp']
    · have hp' := hp
      simp only [Bool.not_eq_true] at hp'
      by_cases hj : c.JWT.Secret = "" <;> simp [hp, hp', hj]

theorem LoadConfig_ok (v : Viper) (path : String) (c : Config)
    (h : LoadConfig v path = .ok c) :
    validateConfig c = none ∧ ∃ raw, v.unmarshal path = .ok raw ∧ c = applyDefaults raw := by
  unfold LoadConfig at h
  cases hr : v.readInConfig path with
  | some err => simp [hr] at h
  | none =>
    cases hu : v.unmarshal path with
    | error err => simp [hr, hu] at h
    | ok raw =>
      simp only [hr, hu] at h
      cases hv : validateConfig (applyDefaults raw) with
      | some err => simp [hv] at h
      | none =>
        simp only [hv, Except.ok.injEq] at h
        subst h
        exact ⟨hv, raw, rfl, rfl⟩

theorem ite_Config_App (p : Prop) [Decidable p] (A A' : AppConfig) (D R L J) :
    (if p then Config.mk A D R L J else Config.mk A' D R L J) =
      Config.mk (if p then A else A') D R L J := by split <;> rfl
theorem ite_Config_Database (p : Prop) [Decidable p] (D D' : DatabaseConfig) (A R L J) :
    (if p then Config.mk A D R L J else Config.mk A D' R L J) =
      Config.mk A (if p then D else D') R L J := by split <;> rfl
theorem ite_Config_Log (p : Prop) [Decidable p] (L L' : LogConfig) (A D R J) :
    (if p then Config.mk A D R L J else Config.mk A D R L' J) =
      Config.mk A D R (if p then L else L') J := by split <;> rfl
theorem ite_Config_JWT (p : Prop) [Decidable p] (J J' : JWTConfig) (A D R L) :
    (if p then Config.mk A D R L J else Config.mk A D R L J') =
      Config.mk A D R L (if p then J else J') := by split <;> rfl
theorem ite_AppConfig_Port (p : Prop) [Decidable p] (x x' : Int) (a b c d) :
    (if p then AppConfig.mk a b c d x else AppConfig.mk a b c d x') =
      AppConfig.mk a b c d (if p then x else x') := by split <;> rfl
theorem ite_DatabaseConfig_Charset (p : Prop) [Decidable p] (x x' : String) (a b c d e f g h) :
    (if p then DatabaseConfig.mk a b c d e f x g h else DatabaseConfig.mk a b c d e f x' g h) =
      DatabaseConfig.mk a b c d e f (if p then x else x') g h := by split <;> rfl
theorem ite_DatabaseConfig_MaxOpenConns (p : Prop) [Decidable p] (x x' : Int)
    (a b c d e f g h) :
    (if p then DatabaseConfig.mk a b c d e f g x h else DatabaseConfig.mk a b c d e f g x' h) =
      DatabaseConfig.mk a b c d e f g (if p then x else x') h := by split <;> rfl
theorem ite_DatabaseConfig_MaxIdleConns (p : Prop) [Decidable p] (x x' : Int)
    (a b c d e f g h) :
    (if p then DatabaseConfig.mk a b c d e f g h x else DatabaseConfig.mk a b c d e f g h x') =
      DatabaseConfig.mk a b c d e f g h (if p then x else x') := by split <;> rfl
theorem ite_LogConfig_Level (p : Prop) [Decidable p] (x x' : String) (b c d) :
    (if p then LogConfig.mk x b c d else LogConfig.mk x' b c d) =
      LogConfig.mk (if p then x else x') b c d := by split <;> rfl
theorem ite_LogConfig_Format (p : Prop) [Decidable p] (x x' : String) (a c d) :
    (if p then LogConfig.mk a x c d else LogConfig.mk a x' c d) =
      LogConfig.mk a (if p then x else x') c d := by split <;> rfl
theorem ite_LogConfig_Output (p : Prop) [Decidable p] (x x' : String) (a b d) :
    (if p then LogConfig.mk a b x d else LogConfig.mk a b x' d) =
      LogConfig.mk a b (if p then x else x') d := by split <;> rfl
theorem ite_LogConfig_File (p : Prop) [Decidable p] (x x' : FileConfig) (a b c) :
    (if p then LogConfig.mk a b c x else LogConfig.mk a b c x') =
      LogConfig.mk a b c (if p then x else x') := by split <;> rfl
theorem ite_FileConfig_MaxSize (p : Prop) [Decidable p] (x x' : Int) (a c d e) :
    (if p then FileConfig.mk a x c d e else FileConfig.mk a x' c d e) =
      FileConfig.mk a (if p then x else x') c d e := by split <;> rfl
theorem ite_FileConfig_MaxBackups (p : Prop) [Decidable p] (x x' : Int) (a b d e) :
    (if p then FileConfig.mk a b x d e else FileConfig.mk a b x' d e) =
      FileConfig.mk a b (if p then x else x') d e := by split <;> rfl
theorem ite_FileConfig_MaxAge (p : Prop) [Decidable p] (x x' : Int) (a b c e) :
    (if p then FileConfig.mk a b c x e else FileConfig.mk a b c x' e) =
      FileConfig.mk a b c (if p then x else x') e := by split <;> rfl
theorem ite_JWTConfig_ExpireTime (p : Prop) [Decidable p] (x x' : Int) (a c) :
    (if p then JWTConfig.mk a x c else JWTConfig.mk a x' c) =
      JWTConfig.mk a (if p then x else x') c := by split <;> rfl
theorem ite_JWTConfig_Issuer (p : Prop) [Decidable p] (x x' : String) (a b) :
    (if p then JWTConfig.mk a b x else JWTConfig.mk a b x') =
      JWTConfig.mk a b (if p then x else x') := by split <;> rfl

/-! ## C1 -/

/-- C1: for a configuration that passes the static validation, `validateConfig`
fails whenever `JWT.Secret` is empty, whatever `App.Environment` is; and when
`JWT.Secret` is non-empty, it fails for an empty `Database.Password` if and
only if `App.Environment` does not contain `"test"`. -/
theorem validateConfig_business_rules (c : Config) (hstatic : validateStruct c = []) :
    (c.JWT.Secret = "" → validateConfig c ≠ none) ∧
    (c.JWT.Secret ≠ "" → c.Database.Password = "" →
      (validateConfig c ≠ none ↔ stringsContains c.App.Environment "test" = false)) := by
  constructor
  · intro hs hnone
    exact ((validateConfig_eq_none_iff c).mp hnone).2.2 hs
  · intro hs hp
    rw [Ne, validateConfig_eq_none_iff]
    simp [hstatic, hs, hp]

/-- Witness for C1: a production configuration with a signing secret and no
datastore credential passes the static validation, and the theorem applies. -/
theorem validateConfig_business_rules_witness :
    validateStruct (applyDefaults (sampleRaw "production" "" "s3cret")) = [] ∧
    ((applyDefaults (sampleRaw "production" "" "s3cret")).JWT.Secret ≠ "" →
      (applyDefaults (sampleRaw "production" "" "s3cret")).Database.Password = "" →
      (validateConfig (applyDefaults (sampleRaw "production" "" "s3cret")) ≠ none ↔
        stringsContains (applyDefaults (sampleRaw "production" "" "s3cret")).App.Environment
          "test" = false)) :=
  ⟨by decide,
   (validateConfig_business_rules (applyDefaults (sampleRaw "production" "" "s3cret"))
      (by decide)).2⟩

/-! ## C2 -/

/-- C2: `applyDefaults` equals the reference default-fill: each of the twelve
defaulted fields takes its default when zero-valued and keeps its value
otherwise, and every other field is unchanged. -/
theorem applyDefaults_eq_defaultFill (c : Config) : applyDefaults c = defaultFill c := by
  obtain ⟨⟨a1, a2, a3, a4, a5⟩, ⟨d1, d2, d3, d4, d5, d6, d7, d8, d9⟩, r,
    ⟨l1, l2, l3, ⟨f1, f2, f3, f4, f5⟩⟩, ⟨j1, j2, j3⟩⟩ := c
  simp only [applyDefaults, ite_Config_App, ite_Config_Database, ite_Config_Log,
    ite_Config_JWT, ite_AppConfig_Port, ite_DatabaseConfig_Charset,
    ite_DatabaseConfig_MaxOpenConns, ite_DatabaseConfig_MaxIdleConns, ite_LogConfig_Level,
    ite_LogConfig_Format, ite_LogConfig_Output, ite_LogConfig_File, ite_FileConfig_MaxSize,
    ite_FileConfig_MaxBackups, ite_FileConfig_MaxAge, ite_JWTConfig_ExpireTime,
    ite_JWTConfig_Issuer]
  rfl

/-! ## C3 -/

/-- C3: if `LoadConfig` on the manager's path fails, `Reload` returns a non-nil
error and leaves the manager as it was: `Get` returns the same snapshot and
`configPath` is unchanged. -/
theorem Reload_failure_keeps_snapshot (v : Viper) (m : Manager) (err : Err)
    (hfail : LoadConfig v m.configPath = .error err) :
    (m.Reload v).2.1 ≠ none ∧ (m.Reload v).1.Get = m.Get ∧
      (m.Reload v).1.configPath = m.configPath := by
  simp [Manager.Reload, hfail]

/-- Witness for C3: a manager holding a valid snapshot, reloaded in a world
where the file can no longer be read. -/
theorem Reload_failure_keeps_snapshot_witness :
    LoadConfig brokenViper "config.yaml" =
      .error (.wrap "failed to read config file"
        (.msg "open config.yaml: no such file or directory")) ∧
    (Manager.Reload brokenViper
        ⟨applyDefaults (sampleRaw "production" "pw" "s3cret"), "config.yaml"⟩).2.1 ≠ none ∧
    (Manager.Reload brokenViper
        ⟨applyDefaults (sampleRaw "production" "pw" "s3cret"), "config.yaml"⟩).1.Get =
      applyDefaults (sampleRaw "production" "pw" "s3cret") ∧
    (Manager.Reload brokenViper
        ⟨applyDefaults (sampleRaw "production" "pw" "s3cret"), "config.yaml"⟩).1.configPath =
      "config.yaml" :=
  ⟨rfl, Reload_failure_keeps_snapshot brokenViper
    ⟨applyDefaults (sampleRaw "production" "pw" "s3cret"), "config.yaml"⟩ _ rfl⟩

/-! ## C8 -/

/-- C8 (evaluation at the failing input): a production configuration with
neither datastore credential nor signing secret passes the static validation
and violates both business rules, yet `validateConfig` (and `LoadConfig`)
returns only the datastore-credential error, whose text does not mention the
signing secret; the exported `ValidateConfig` lists both violations. -/
theorem validateConfig_reports_first_rule_only :
    validateStruct (applyDefaults (sampleRaw "production" "" "")) = [] ∧
    (applyDefaults (sampleRaw "production" "" "")).Database.Password = "" ∧
    stringsContains (applyDefaults (sampleRaw "production" "" "")).App.Environment "test"
      = false ∧
    (applyDefaults (sampleRaw "production" "" "")).JWT.Secret = "" ∧
    validateConfig (applyDefaults (sampleRaw "production" "" "")) =
      some (.msg "database password is required for non-test environments") ∧
    LoadConfig (sampleViper (sampleRaw "production" "" "")) "config.yaml" =
      .error (.wrap "config validation failed"
        (.msg "database password is required for non-test environments")) ∧
    stringsContains
      (Err.wrap "config validation failed"
        (.msg "database password is required for non-test environments")).Error
      "JWT" = false ∧
    ValidateConfig.errors (applyDefaults (sampleRaw "production" "" "")) =
      ["JWT secret is required", "Database password is required for non-test environments"] := by
  refine ⟨by decide, by decide, by decide, by decide, by decide, rfl, by decide, by decide⟩

/-! ## C9 -/

/-- C9: every snapshot `LoadConfig` returns without error satisfies the
snapshot invariants (ports in [1, 65535], enumerated fields within their sets,
required fields non-zero, signing secret non-empty, datastore credential
non-empty unless the environment contains `"test"`), and it is the snapshot a
manager created by `NewManager` on the same path hands out through `Get`. -/
theorem LoadConfig_snapshot_invariant (v : Viper) (path : String) (c : Config)
    (hload : LoadConfig v path = .ok c) :
    SnapshotInvariant c ∧ ∃ m, NewManager v path = .ok m ∧ m.Get = c := by
  obtain ⟨hv, -⟩ := LoadConfig_ok v path c hload
  obtain ⟨hs, hp, hj⟩ := (validateConfig_eq_none_iff c).mp hv
  obtain ⟨⟨a1, a2, a3, a4, a5, a6, a7⟩, ⟨d1, d2, d3, d4, d5, d6, d7, -, -⟩,
    ⟨r1, r2, r3, r4, -⟩, ⟨l1, l2, l3, l4, l5, l6, l7, -, -, -⟩, j1, j2⟩ :=
    (validateStruct_eq_nil_iff c).mp hs
  refine ⟨⟨⟨a6, a7⟩, ⟨d4, d5⟩, ⟨r3, r4⟩, a4, l2, l4, l6, ?_, hj, ?_⟩, ?_⟩
  · refine ⟨?_, ?_, ?_, ?_, a1, a2, a3, a5, d1, d2, d3, d6, d7, r1, r2, l1, l3, l5, l7, j1, j2⟩
    · intro h; rw [h] at a1; exact a1 rfl
    · intro h; rw [h] at d1; exact d1 rfl
    · intro h; rw [h] at l1; exact l1 rfl
    · intro h; rw [h] at j1; exact j1 rfl
  · intro ht hpw
    exact hp ⟨hpw, ht⟩
  · exact ⟨⟨c, path⟩, by simp [NewManager, hload], rfl⟩

/-- Witness for C9: a well-formed production file with both secrets loads, and
the loaded snapshot satisfies the invariants. -/
theorem LoadConfig_snapshot_invariant_witness :
    LoadConfig (sampleViper (sampleRaw "production" "pw" "s3cret")) "config.yaml" =
      .ok (applyDefaults (sampleRaw "production" "pw" "s3cret")) ∧
    SnapshotInvariant (applyDefaults (sampleRaw "production" "pw" "s3cret")) :=
  ⟨rfl,
   (LoadConfig_snapshot_invariant (sampleViper (sampleRaw "production" "pw" "s3cret"))
      "config.yaml" (applyDefaults (sampleRaw "production" "pw" "s3cret")) rfl).1⟩

/-! ## Logger: supporting lemmas -/

namespace logger

theorem fieldMap_eq_of_getElem? (st st' : State) (r : Nat)
    (h : st'.maps[r]? = st.maps[r]?) : st'.fieldMap r = st.fieldMap r := by
  simp only [State.fieldMap, List.getD_eq_getElem?_getD, h]

theorem mapAssign_maps_ne (st : State) (ref i : Nat) (k : String) (v : Value) (h : i ≠ ref) :
    (st.mapAssign ref k v).maps[i]? = st.maps[i]? := by
  simp only [State.mapAssign]
  exact List.getElem?_set_ne (Ne.symm h)

theorem mapAssign_fieldMap_self (st : State) (ref : Nat) (k : String) (v : Value)
    (h : ref < st.maps.length) :
    (st.mapAssign ref k v).fieldMap ref = (st.fieldMap ref).insert k v := by
  simp only [State.fieldMap, State.mapAssign, List.getD_eq_getElem?_getD,
    List.getElem?_set_self h, Option.getD_some]

/-- The copy loop of `WithField`: the state after assigning every visited pair
into the map at `ref`. -/
theorem copy_frame (ref : Nat) (kvs : List (String × Value)) (st : State) :
    let st' := kvs.foldl (fun s kv => s.mapAssign ref kv.1 kv.2) st
    st'.loggers = st.loggers ∧ st'.globalLogger = st.globalLogger ∧ st'.out = st.out ∧
      st'.maps.length = st.maps.length ∧ ∀ i, i ≠ ref → st'.maps[i]? = st.maps[i]? := by
  induction kvs generalizing st with
  | nil => simp
  | cons kv rest ih =>
    obtain ⟨h1, h2, h3, h4, h5⟩ := ih (st.mapAssign ref kv.1 kv.2)
    refine ⟨h1, h2, h3, ?_, ?_⟩
    · simpa [State.mapAssign] using h4
    · intro i hi
      rw [List.foldl_cons, h5 i hi, mapAssign_maps_ne st ref i kv.1 kv.2 hi]

theorem copy_fieldMap (ref : Nat) (kvs : List (String × Value)) (st : State)
    (h : ref < st.maps.length) :
    (kvs.foldl (fun s kv => s.mapAssign ref kv.1 kv.2) st).fieldMap ref =
      kvs.foldl (fun (m : Fields) kv => m.insert kv.1 kv.2) (st.fieldMap ref) := by
  induction kvs generalizing st with
  | nil => rfl
  | cons kv rest ih =>
    have hlen : ref < (st.mapAssign ref kv.1 kv.2).maps.length := by
      simpa [State.mapAssign] using h
    rw [List.foldl_cons, ih _ hlen, mapAssign_fieldMap_self st ref kv.1 kv.2 h, List.foldl_cons]

/-- Inserting pairs with pairwise distinct keys one after the other: a key among
them reads its own value, any other key reads what the start map held. -/
theorem lookup_foldl_insert (k : String) (kvs : List (String × Value)) (m0 : Fields)
    (hnd : (kvs.map Prod.fst).Nodup) :
    (kvs.foldl (fun (m : Fields) kv => m.insert kv.1 kv.2) m0).lookup k =
      match kvs.lookup k with
      | some v => some v
      | none => m0.lookup k := by
  induction kvs generalizing m0 with
  | nil => rfl
  | cons kv rest ih =>
    obtain ⟨a, b⟩ := kv
    simp only [List.map_cons, List.nodup_cons] at hnd
    rw [List.foldl_cons, ih _ hnd.2]
    by_cases hk : k = a
    · subst hk
      have hnone : rest.lookup k = none := by
        rw [List.lookup_eq_none_iff]
        intro p hp
        have hpk : k ≠ p.1 := by
          intro hkp
          exact hnd.1 (hkp ▸ List.mem_map_of_mem Prod.fst hp)
        simpa using hpk
      simp [hnone, List.lookup_cons, AList.lookup_insert]
    · have hne : (k == a) = false := by simpa using hk
      simp only [List.lookup_cons, hne, AList.lookup_insert_ne hk]

theorem lookup_pairs_entries (k : String) (l : List (Σ _ : String, Value)) :
    (l.map (fun e => (e.1, e.2))).lookup k = List.dlookup k l := by
  induction l with
  | nil => rfl
  | cons e rest ih =>
    obtain ⟨a, b⟩ := e
    by_cases hk : k = a
    · subst hk
      simp [List.lookup_cons, List.dlookup_cons_eq]
    · have hne : (k == a) = false := by simpa using hk
      simp only [List.map_cons, List.lookup_cons, hne, ih]
      exact (List.dlookup_cons_ne rest ⟨a, b⟩ hk).symm

theorem range_keys_nodup (st : State) (ref : Nat) : ((st.range ref).map Prod.fst).Nodup := by
  have h := (st.fieldMap ref).nodupKeys
  simp only [State.range, List.map_map]
  exact h

/-- Copying a map entry by entry into an empty map gives a map with the same
content. -/
theorem lookup_copy (st : State) (ref : Nat) (k : String) :
    ((st.range ref).foldl (fun (m : Fields) kv => m.insert kv.1 kv.2) ∅).lookup k =
      (st.fieldMap ref).lookup k := by
  rw [lookup_foldl_insert k _ _ (range_keys_nodup st ref), State.range, lookup_pairs_entries]
  show (match (st.fieldMap ref).lookup k with
    | some v => some v
    | none => AList.lookup k (∅ : Fields)) = _
  cases (st.fieldMap ref).lookup k <;> rfl


/-- What `WithField` does to the memory: it returns the address of one new
`SimpleLogger` that shares the receiver's handler and threshold and owns one
new map, and every object that existed before the call is as it was. -/
theorem WithField_spec (st : State) (a : Nat) (key : String) (value : Value)
    (obj : SimpleLogger) (ha : st.loggers[a]? = some obj) (hmap : obj.fields < st.maps.length) :
    ∃ st', SimpleLogger.WithField st a key value = .ok (st', some st.loggers.length) ∧
      st'.loggers =
        st.loggers ++ [{ logger := obj.logger, level := obj.level, fields := st.maps.length }] ∧
      st'.globalLogger = st.globalLogger ∧ st'.out = st.out ∧
      (∀ i, i < st.maps.length → st'.maps[i]? = st.maps[i]?) ∧
      ∀ k, (st'.fieldMap st.maps.length).lookup k =
        if k = key then some value else (st.fieldMap obj.fields).lookup k := by
  set st1 : State :=
    { st with
      maps := st.maps ++ [∅]
      loggers := st.loggers ++
        [{ logger := obj.logger, level := obj.level, fields := st.maps.length }] } with hst1
  set st2 := (st1.range obj.fields).foldl
    (fun s kv => s.mapAssign st.maps.length kv.1 kv.2) st1 with hst2
  have hnew1 : st.maps.length < st1.maps.length := by simp [hst1]
  obtain ⟨f1, f2, f3, f4, f5⟩ := copy_frame st.maps.length (st1.range obj.fields) st1
  rw [← hst2] at f1 f2 f3 f4 f5
  have hnew2 : st.maps.length < st2.maps.length := by rw [f4]; exact hnew1
  have hold1 : ∀ i, i < st.maps.length → st1.maps[i]? = st.maps[i]? := by
    intro i hi
    simp only [hst1]
    exact List.getElem?_append_left hi
  have hsrc : st1.fieldMap obj.fields = st.fieldMap obj.fields :=
    fieldMap_eq_of_getElem? st st1 obj.fields (hold1 obj.fields hmap)
  have hrange : st1.range obj.fields = st.range obj.fields := by
    simp only [State.range, hsrc]
  have hempty : st1.fieldMap st.maps.length = ∅ := by
    simp only [State.fieldMap, hst1, List.getD_eq_getElem?_getD, List.getElem?_concat_length,
      Option.getD_some]
  refine ⟨st2.mapAssign st.maps.length key value, ?_, ?_, ?_, ?_, ?_, ?_⟩
  · simp only [SimpleLogger.WithField, ha]
  · show st2.loggers = _
    rw [f1]
  · show st2.globalLogger = _
    rw [f2]
  · show st2.out = _
    rw [f3]
  · intro i hi
    have hne : i ≠ st.maps.length := Nat.ne_of_lt hi
    rw [mapAssign_maps_ne st2 _ i key value hne, f5 i hne, hold1 i hi]
  · intro k
    rw [mapAssign_fieldMap_self st2 _ key value hnew2, hst2,
      copy_fieldMap _ _ st1 hnew1, hempty, hrange]
    by_cases hk : k = key
    · subst hk
      simp [AList.lookup_insert]
    · rw [AList.lookup_insert_ne hk, lookup_copy, if_neg hk]

/-- `NewLogger` never fails: it returns the address of one new `SimpleLogger`
whose threshold is the parsed level, whose handler has the matching `slog`
level, and whose map is new and empty. -/
theorem NewLogger_spec (st : State) (cfg : Config) :
    ∃ st1 obj, NewLogger st cfg = (st1, some st.loggers.length, none) ∧
      st1.loggers = st.loggers ++ [obj] ∧ st1.maps = st.maps ++ [∅] ∧
      st1.globalLogger = st.globalLogger ∧ st1.out = st.out ∧
      obj.level = ParseLevel cfg.Level ∧
      obj.logger.level = convertLevel (ParseLevel cfg.Level) ∧ obj.fields = st.maps.length := by
  refine ⟨_, _, rfl, rfl, rfl, rfl, rfl, rfl, ?_, rfl⟩
  by_cases hf : cfg.Format = "json" <;> simp [hf]

theorem ParseLevel_cases (s : String) (h : s ∈ ["debug", "info", "warn", "error"]) :
    ParseLevel s ∈ [DebugLevel, InfoLevel, WarnLevel, ErrorLevel] := by
  simp only [List.mem_cons, List.mem_singleton, List.not_mem_nil, or_false] at h
  rcases h with h | h | h | h <;> subst h <;> decide

/-- The gate of `(*SimpleLogger).log` for a logger whose handler level is the
converted threshold: at one of the four levels, the record reaches the handler
exactly when the level is at least the threshold. -/
theorem log_spec (st : State) (p : Nat) (obj : SimpleLogger) (lv : Level) (msg : String)
    (hp : st.loggers[p]? = some obj)
    (hth : obj.level ∈ [DebugLevel, InfoLevel, WarnLevel, ErrorLevel])
    (hh : obj.logger.level = convertLevel obj.level)
    (hlv : lv ∈ [DebugLevel, InfoLevel, WarnLevel, ErrorLevel]) :
    SimpleLogger.log st p lv msg =
      .ok (if obj.level ≤ lv then
        { st with
          out := st.out ++ [⟨obj.logger, convertLevel lv, msg, st.range obj.fields⟩] }
        else st) := by
  simp only [List.mem_cons, List.mem_singleton, List.not_mem_nil, or_false] at hth hlv
  simp only [SimpleLogger.log, hp, SlogLogger.log, hh]
  rcases hth with h | h | h | h <;> rcases hlv with h' | h' | h' | h' <;> rw [h, h'] <;>
    simp [DebugLevel, InfoLevel, WarnLevel, ErrorLevel, convertLevel, slogLevelDebug,
      slogLevelInfo, slogLevelWarn, slogLevelError]


theorem lookup_of_mem (l : List (String × Value)) (hnd : (l.map Prod.fst).Nodup)
    (a : String) (b : Value) (h : (a, b) ∈ l) : l.lookup a = some b := by
  induction l with
  | nil => cases h
  | cons kv rest ih =>
    obtain ⟨a', b'⟩ := kv
    simp only [List.map_cons, List.nodup_cons] at hnd
    rcases List.mem_cons.mp h with heq | hmem
    · cases heq
      simp [List.lookup_cons]
    · have hne : a ≠ a' := by
        intro hh
        exact hnd.1 (hh ▸ List.mem_map_of_mem Prod.fst hmem)
      have hb : (a == a') = false := by simpa using hne
      simp only [List.lookup_cons, hb]
      exact ih hnd.2 hmem

theorem mem_of_lookup (l : List (String × Value)) (a : String) (b : Value)
    (h : l.lookup a = some b) : (a, b) ∈ l := by
  induction l with
  | nil => cases h
  | cons kv rest ih =>
    obtain ⟨a', b'⟩ := kv
    by_cases hk : a = a'
    · subst hk
      simp only [List.lookup_cons, beq_self_eq_true, Option.some.injEq] at h
      subst h
      exact List.mem_cons_self _ _
    · have hb : (a == a') = false := by simpa using hk
      simp only [List.lookup_cons, hb] at h
      exact List.mem_cons_of_mem _ (ih h)

/-- The order in which `range` visits the entries of a map does not matter to
the copy loop of `WithField`: visiting them in any other order builds a map
with the same content. -/
theorem copy_order_irrelevant (st : State) (ref : Nat) (order : List (String × Value))
    (hperm : order.Perm (st.range ref)) (m0 : Fields) (k : String) :
    (order.foldl (fun (m : Fields) kv => m.insert kv.1 kv.2) m0).lookup k =
      ((st.range ref).foldl (fun (m : Fields) kv => m.insert kv.1 kv.2) m0).lookup k := by
  have hnd := range_keys_nodup st ref
  have hnd' : (order.map Prod.fst).Nodup := (hperm.map Prod.fst).nodup_iff.mpr hnd
  rw [lookup_foldl_insert k _ _ hnd, lookup_foldl_insert k _ _ hnd']
  have hl : order.lookup k = (st.range ref).lookup k := by
    cases h : (st.range ref).lookup k with
    | some v => exact lookup_of_mem order hnd' k v (hperm.mem_iff.mpr (mem_of_lookup _ k v h))
    | none =>
      cases h' : order.lookup k with
      | none => rfl
      | some v =>
        have := lookup_of_mem _ hnd k v (hperm.mem_iff.mp (mem_of_lookup _ k v h'))
        rw [h] at this
        cases this
  rw [hl]

/-- The initial memory is well formed. -/
theorem initial_wellFormed : State.initial.WellFormed := by
  refine ⟨?_, ?_⟩
  · intro p obj h
    simp [State.initial] at h
  · intro p h
    simp [State.initial] at h

theorem wellFormed_append (st : State) (hwf : st.WellFormed) (st' : State) (g : Logger)
    (obj : SimpleLogger) (hl : st'.loggers = st.loggers ++ [obj])
    (hm : st'.maps.length = st.maps.length + 1) (hf : obj.fields = st.maps.length)
    (hg : st'.globalLogger = g) (hgv : ∀ p, g = some p → p < st.loggers.length + 1) :
    st'.WellFormed := by
  refine ⟨?_, ?_⟩
  · intro p o h
    rw [hl] at h
    rw [hm]
    by_cases hp : p < st.loggers.length
    · rw [List.getElem?_append_left hp] at h
      exact Nat.lt_succ_of_lt (hwf.1 p o h)
    · rw [List.getElem?_append_right (Nat.le_of_not_lt hp)] at h
      cases hk : p - st.loggers.length with
      | zero =>
        rw [hk] at h
        simp only [List.getElem?_cons_zero, Option.some.injEq] at h
        rw [← h, hf]
        exact Nat.lt_succ_self _
      | succ n =>
        rw [hk] at h
        simp at h
  · intro p h
    rw [hg] at h
    rw [hl, List.length_append, List.length_singleton]
    exact hgv p h

/-- `NewLogger` keeps the memory well formed. -/
theorem NewLogger_wellFormed (st : State) (cfg : Config) (hwf : st.WellFormed) :
    (NewLogger st cfg).1.WellFormed :=
  wellFormed_append st hwf _ st.globalLogger _ rfl (by simp [NewLogger]) rfl rfl
    (fun p h => Nat.lt_succ_of_lt (hwf.2 p h))

/-- `Init` keeps the memory well formed. -/
theorem Init_wellFormed (sys : Sys) (st : State) (cfg : Config) (hwf : st.WellFormed) :
    (Init sys st cfg).1.WellFormed := by
  have key : (InitGlobalLogger st cfg).1.WellFormed :=
    wellFormed_append st hwf _ (some st.loggers.length) _ rfl
      (by simp [InitGlobalLogger, NewLogger]) rfl rfl
      (fun p h => by cases h; exact Nat.lt_succ_self _)
  unfold Init
  split
  · split
    · exact hwf
    · exact key
  · exact key

/-- `WithField` keeps the memory well formed. -/
theorem WithField_wellFormed (st : State) (a : Nat) (key : String) (value : Value)
    (st' : State) (b : Logger) (hwf : st.WellFormed)
    (h : SimpleLogger.WithField st a key value = .ok (st', b)) : st'.WellFormed := by
  unfold SimpleLogger.WithField at h
  cases ha : st.loggers[a]? with
  | none =>
    rw [ha] at h
    cases h
  | some obj =>
    rw [ha] at h
    simp only [Result.ok.injEq, Prod.mk.injEq] at h
    obtain ⟨hst, -⟩ := h
    subst hst
    obtain ⟨f1, f2, -, f4, -⟩ := copy_frame st.maps.length
      (State.range { st with
        maps := st.maps ++ [∅]
        loggers := st.loggers ++
          [{ logger := obj.logger, level := obj.level, fields := st.maps.length }] } obj.fields)
      { st with
        maps := st.maps ++ [∅]
        loggers := st.loggers ++
          [{ logger := obj.logger, level := obj.level, fields := st.maps.length }] }
    refine wellFormed_append st hwf _ st.globalLogger
      { logger := obj.logger, level := obj.level, fields := st.maps.length } f1 ?_ rfl f2
      (fun p hp => Nat.lt_succ_of_lt (hwf.2 p hp))
    have hlen : ∀ (s : State) (r : Nat) (k : String) (v : Value),
        (s.mapAssign r k v).maps.length = s.maps.length := by
      intro s r k v
      simp [State.mapAssign]
    rw [hlen, f4]
    simp

/-- The direct calls of the global facade are dropped while `globalLogger` is
nil: they return without a panic and leave the state, hence the emitted
records, as they were. -/
theorem facade_direct_calls_dropped (sprintf : Sprintf) (st : State)
    (h : st.globalLogger = none) (msg : String) (args : List Value) :
    Debug st msg = .ok st ∧ Info st msg = .ok st ∧ Warn st msg = .ok st ∧
    Error st msg = .ok st ∧ Debugf sprintf st msg args = .ok st ∧
    Infof sprintf st msg args = .ok st ∧ Warnf sprintf st msg args = .ok st ∧
    Errorf sprintf st msg args = .ok st := by
  simp [Debug, Info, Warn, Error, Debugf, Infof, Warnf, Errorf, h]

/-- With threshold `warn`, `Debug` and `Info` emit nothing, `Warn` and `Error`
emit one record each. -/
theorem warn_threshold_methods (st : State) (cfg : Config) (msg : String)
    (hcfg : cfg.Level = "warn") :
    ∃ st1 p h, NewLogger st cfg = (st1, some p, none) ∧
      SimpleLogger.Debug st1 p msg = .ok st1 ∧ SimpleLogger.Info st1 p msg = .ok st1 ∧
      SimpleLogger.Warn st1 p msg =
        .ok { st1 with out := st1.out ++ [⟨h, slogLevelWarn, msg, []⟩] } ∧
      SimpleLogger.Error st1 p msg =
        .ok { st1 with out := st1.out ++ [⟨h, slogLevelError, msg, []⟩] } := by
  obtain ⟨st1, obj, h1, h2, h3, -, -, h6, h7, h8⟩ := NewLogger_spec st cfg
  have hp : st1.loggers[st.loggers.length]? = some obj := by
    rw [h2]; exact List.getElem?_concat_length _ _
  have hlevel : obj.level = WarnLevel := by rw [h6, hcfg]; decide
  have hth : obj.level ∈ [DebugLevel, InfoLevel, WarnLevel, ErrorLevel] := by
    rw [hlevel]; decide
  have hh : obj.logger.level = convertLevel obj.level := by rw [h7, h6]
  have hrange : st1.range obj.fields = [] := by
    simp [State.range, State.fieldMap, h3, h8]
  refine ⟨st1, _, obj.logger, h1, ?_, ?_, ?_, ?_⟩
  · rw [SimpleLogger.Debug, log_spec st1 _ obj _ msg hp hth hh (by decide), hlevel]
    rfl
  · rw [SimpleLogger.Info, log_spec st1 _ obj _ msg hp hth hh (by decide), hlevel]
    rfl
  · rw [SimpleLogger.Warn, log_spec st1 _ obj _ msg hp hth hh (by decide), hlevel, hrange]
    rfl
  · rw [SimpleLogger.Error, log_spec st1 _ obj _ msg hp hth hh (by decide), hlevel, hrange]
    rfl

/-! ## C4 -/

/-- C4: for a logger built by `NewLogger` from a configuration whose level
string names the level `c` (one of debug, info, warn, error) and a record
level `r` among the four, `log` at the record level, and likewise the method
named after it, hands a record to the backing handler if and only if `r` is at
least `c` in the ordering debug < info < warn < error; when it does, the record
carries the message at the `slog` level of `r`, and when it does not, nothing
changes. In particular, with configured level `warn`, `Debug` and `Info` emit
nothing while `Warn` and `Error` each emit one record. -/
theorem log_level_gate (st : State) (cfg : Config) (c r : LevelName) (msg : String)
    (hcfg : cfg.Level = c.name) :
    ∃ st1 p, NewLogger st cfg = (st1, some p, none) ∧
      (∃ st2, SimpleLogger.log st1 p r.level msg = .ok st2 ∧
        r.method st1 p msg = .ok st2 ∧
        ((∃ rec, st2.out = st1.out ++ [rec]) ↔ c.rank ≤ r.rank) ∧
        (c.rank ≤ r.rank →
          ∃ rec, st2.out = st1.out ++ [rec] ∧ rec.msg = msg ∧ rec.level = r.slog) ∧
        (¬ c.rank ≤ r.rank → st2 = st1)) ∧
      (cfg.Level = "warn" →
        SimpleLogger.Debug st1 p msg = .ok st1 ∧
        SimpleLogger.Info st1 p msg = .ok st1 ∧
        (∃ rec, SimpleLogger.Warn st1 p msg = .ok { st1 with out := st1.out ++ [rec] } ∧
          rec.msg = msg) ∧
        (∃ rec, SimpleLogger.Error st1 p msg = .ok { st1 with out := st1.out ++ [rec] } ∧
          rec.msg = msg)) := by
  obtain ⟨st1, obj, h1, h2, -, -, -, h6, h7, -⟩ := NewLogger_spec st cfg
  have hp : st1.loggers[st.loggers.length]? = some obj := by
    rw [h2]; exact List.getElem?_concat_length _ _
  have hlevel : obj.level = c.level := by
    rw [h6, hcfg]
    cases c <;> decide
  have hth : obj.level ∈ [DebugLevel, InfoLevel, WarnLevel, ErrorLevel] := by
    rw [hlevel]
    cases c <;> decide
  have hh : obj.logger.level = convertLevel obj.level := by rw [h7, h6]
  have hin : ∀ x : LevelName, x.level ∈ [DebugLevel, InfoLevel, WarnLevel, ErrorLevel] := by
    intro x
    cases x <;> decide
  have hmethod : ∀ (x : LevelName) (s : State) (q : Nat) (m : String),
      x.method s q m = SimpleLogger.log s q x.level m := by
    intro x s q m
    cases x <;> rfl
  have hrank : ∀ x : LevelName, obj.level ≤ x.level ↔ c.rank ≤ x.rank := by
    intro x
    rw [hlevel]
    cases c <;> cases x <;> decide
  have hslog : ∀ x : LevelName, convertLevel x.level = x.slog := by
    intro x
    cases x <;> decide
  have hlog : ∀ x : LevelName, SimpleLogger.log st1 st.loggers.length x.level msg =
      .ok (if obj.level ≤ x.level then
        { st1 with
          out := st1.out ++ [⟨obj.logger, convertLevel x.level, msg, st1.range obj.fields⟩] }
        else st1) :=
    fun x => log_spec st1 _ obj x.level msg hp hth hh (hin x)
  refine ⟨st1, _, h1, ⟨_, hlog r, (hmethod r _ _ _).trans (hlog r), ?_⟩, ?_⟩
  · by_cases hg : obj.level ≤ r.level
    · have hg' := (hrank r).mp hg
      rw [if_pos hg]
      exact ⟨⟨fun _ => hg', fun _ => ⟨_, rfl⟩⟩, fun _ => ⟨_, rfl, rfl, hslog r⟩,
        fun hn => absurd hg' hn⟩
    · have hg' : ¬ c.rank ≤ r.rank := fun h => hg ((hrank r).mpr h)
      rw [if_neg hg]
      refine ⟨⟨?_, fun h => absurd h hg'⟩, fun h => absurd h hg', fun _ => rfl⟩
      rintro ⟨rec, hr⟩
      have := congrArg List.length hr
      simp at this
  · intro hwarn
    have hc : c = .warn := by
      rw [hcfg] at hwarn
      cases c <;> first | rfl | (exact absurd hwarn (by decide))
    subst hc
    have hd := hlog .debug
    have hi := hlog .info
    have hw := hlog .warn
    have he := hlog .error
    rw [if_neg (fun h => absurd ((hrank .debug).mp h) (by decide))] at hd
    rw [if_neg (fun h => absurd ((hrank .info).mp h) (by decide))] at hi
    rw [if_pos ((hrank .warn).mpr (by decide))] at hw
    rw [if_pos ((hrank .error).mpr (by decide))] at he
    exact ⟨hd, hi, ⟨_, hw, rfl⟩, ⟨_, he, rfl⟩⟩

/-- Witness for C4: threshold `warn` and a record at level `error`, together
with the four methods at threshold `warn`. -/
theorem log_level_gate_witness :
    ∃ st1 p, NewLogger State.initial warnConfig = (st1, some p, none) ∧
      (∃ st2, SimpleLogger.log st1 p LevelName.error.level "disk full" = .ok st2 ∧
        LevelName.error.method st1 p "disk full" = .ok st2 ∧
        ((∃ rec, st2.out = st1.out ++ [rec]) ↔ LevelName.warn.rank ≤ LevelName.error.rank) ∧
        (LevelName.warn.rank ≤ LevelName.error.rank →
          ∃ rec, st2.out = st1.out ++ [rec] ∧ rec.msg = "disk full" ∧
            rec.level = LevelName.error.slog) ∧
        (¬ LevelName.warn.rank ≤ LevelName.error.rank → st2 = st1)) ∧
      (warnConfig.Level = "warn" →
        SimpleLogger.Debug st1 p "disk full" = .ok st1 ∧
        SimpleLogger.Info st1 p "disk full" = .ok st1 ∧
        (∃ rec, SimpleLogger.Warn st1 p "disk full" =
            .ok { st1 with out := st1.out ++ [rec] } ∧ rec.msg = "disk full") ∧
        (∃ rec, SimpleLogger.Error st1 p "disk full" =
            .ok { st1 with out := st1.out ++ [rec] } ∧ rec.msg = "disk full")) :=
  log_level_gate State.initial warnConfig .warn .error "disk full" rfl

/-! ## C5 -/

/-- C5: `WithField` never mutates its receiver. For a receiver `a` holding a
map, the call returns, and afterwards the object at `a` (handler, threshold and
map reference) and the content of its map are what they were, as is every
other logger and map that existed before; a key absent from the receiver's
field set is still absent from it. -/
theorem WithField_receiver_unchanged (st : State) (a : Nat) (key : String) (value : Value)
    (obj : SimpleLogger) (ha : st.loggers[a]? = some obj) (hmap : obj.fields < st.maps.length) :
    ∃ st' b, SimpleLogger.WithField st a key value = .ok (st', b) ∧
      st'.loggers[a]? = some obj ∧
      st'.fieldMap obj.fields = st.fieldMap obj.fields ∧
      (∀ i, i < st.loggers.length → st'.loggers[i]? = st.loggers[i]?) ∧
      (∀ r, r < st.maps.length → st'.maps[r]? = st.maps[r]?) ∧
      (key ∉ st.fieldMap obj.fields → key ∉ st'.fieldMap obj.fields) := by
  obtain ⟨st', h1, h2, -, -, h5, -⟩ := WithField_spec st a key value obj ha hmap
  have hlog : ∀ i, i < st.loggers.length → st'.loggers[i]? = st.loggers[i]? := by
    intro i hi
    rw [h2]
    exact List.getElem?_append_left hi
  have ha' : a < st.loggers.length := by
    by_contra hge
    rw [List.getElem?_eq_none (Nat.le_of_not_lt hge)] at ha
    exact Option.noConfusion ha
  have hfm : st'.fieldMap obj.fields = st.fieldMap obj.fields :=
    fieldMap_eq_of_getElem? st st' obj.fields (h5 obj.fields hmap)
  refine ⟨st', _, h1, ?_, hfm, hlog, h5, ?_⟩
  · rw [hlog a ha', ha]
  · intro hk
    rw [hfm]
    exact hk

/-- Witness for C5: adding `user_id` to a logger that holds `request_id`. -/
theorem WithField_receiver_unchanged_witness :
    ∃ st' b, SimpleLogger.WithField sampleState 0 "user_id" (.int 12345) = .ok (st', b) ∧
      st'.loggers[0]? = some sampleLogger ∧
      st'.fieldMap sampleLogger.fields = sampleState.fieldMap sampleLogger.fields ∧
      (∀ i, i < sampleState.loggers.length → st'.loggers[i]? = sampleState.loggers[i]?) ∧
      (∀ r, r < sampleState.maps.length → st'.maps[r]? = sampleState.maps[r]?) ∧
      ("user_id" ∉ sampleState.fieldMap sampleLogger.fields →
        "user_id" ∉ st'.fieldMap sampleLogger.fields) :=
  WithField_receiver_unchanged sampleState 0 "user_id" (.int 12345) sampleLogger rfl
    (by decide)

/-! ## C6 -/

/-- C6: the logger returned by `WithField` has the receiver's threshold and
backing handler, and its field map maps the new key to the new value and every
other key to what the receiver's map holds for it. -/
theorem WithField_result_fields (st : State) (a : Nat) (key : String) (value : Value)
    (obj : SimpleLogger) (ha : st.loggers[a]? = some obj) (hmap : obj.fields < st.maps.length) :
    ∃ st' b objb, SimpleLogger.WithField st a key value = .ok (st', some b) ∧
      st'.loggers[b]? = some objb ∧ objb.level = obj.level ∧ objb.logger = obj.logger ∧
      ∀ k, (st'.fieldMap objb.fields).lookup k =
        if k = key then some value else (st.fieldMap obj.fields).lookup k := by
  obtain ⟨st', h1, h2, -, -, -, h6⟩ := WithField_spec st a key value obj ha hmap
  refine ⟨st', _, ⟨obj.logger, obj.level, st.maps.length⟩, h1, ?_, rfl, rfl, h6⟩
  rw [h2]
  exact List.getElem?_concat_length _ _

/-- Witness for C6: overriding the inherited `request_id`. -/
theorem WithField_result_fields_witness :
    ∃ st' b objb,
      SimpleLogger.WithField sampleState 0 "request_id" (.str "req-456") = .ok (st', some b) ∧
      st'.loggers[b]? = some objb ∧ objb.level = sampleLogger.level ∧
      objb.logger = sampleLogger.logger ∧
      ∀ k, (st'.fieldMap objb.fields).lookup k =
        if k = "request_id" then some (.str "req-456")
        else (sampleState.fieldMap sampleLogger.fields).lookup k :=
  WithField_result_fields sampleState 0 "request_id" (.str "req-456") sampleLogger rfl
    (by decide)

/-! ## C7 -/

/-- C7 (evaluation at the failing input): before any `Init`, the facade's
`WithField` returns the nil `Logger` without touching the state, and the
chained `.Info` on that value panics with a nil dereference. -/
theorem WithField_chain_panics_uninitialised :
    GetGlobalLogger State.initial = none ∧
    WithField State.initial "user_id" (.int 12345) = .ok (State.initial, none) ∧
    (WithField State.initial "user_id" (.int 12345)).bind
        (fun r => Logger.call r.2 (fun p => SimpleLogger.Info r.1 p "login")) =
      .panicked nilDereference ∧
    (WithError State.initial (some "boom")).bind
        (fun r => Logger.call r.2 (fun p => SimpleLogger.Error r.1 p "failed")) =
      .panicked nilDereference :=
  ⟨rfl, rfl, rfl, rfl⟩

/-! ## C10 -/

/-- C10 (counterexample): a first `Init` with the default configuration succeeds
and sets the singleton; a second `Init` with threshold `debug` succeeds as well
and `GetGlobalLogger` then returns a different logger, with a different
threshold. -/
theorem Init_twice_changes_singleton :
    GetGlobalLogger State.initial = none ∧
    (Init sampleSys State.initial DefaultConfig).2 = none ∧
    GetGlobalLogger (Init sampleSys State.initial DefaultConfig).1 = some 0 ∧
    (Init sampleSys (Init sampleSys State.initial DefaultConfig).1 debugConfig).2 = none ∧
    GetGlobalLogger (Init sampleSys (Init sampleSys State.initial DefaultConfig).1
      debugConfig).1 = some 1 ∧
    GetGlobalLogger (Init sampleSys (Init sampleSys State.initial DefaultConfig).1
      debugConfig).1 ≠ GetGlobalLogger (Init sampleSys State.initial DefaultConfig).1 ∧
    ((Init sampleSys State.initial DefaultConfig).1.loggers[0]?).map (fun o => o.level)
      = some InfoLevel ∧
    ((Init sampleSys (Init sampleSys State.initial DefaultConfig).1
      debugConfig).1.loggers[1]?).map (fun o => o.level) = some DebugLevel := by
  refine ⟨rfl, rfl, rfl, rfl, rfl, by decide, rfl, rfl⟩

/-- C10 (amended): every successful `Init` replaces the singleton: afterwards
`GetGlobalLogger` returns a logger allocated by this call (an address unused
before), built from this call's configuration with an empty field set, so it
differs from whatever valid logger was installed before; a failed `Init`
leaves the state, and with it the singleton, unchanged. -/
theorem Init_replaces_singleton (sys : Sys) (st : State) (cfg : Config) :
    ((Init sys st cfg).2 = none →
      GetGlobalLogger (Init sys st cfg).1 = some st.loggers.length ∧
      st.loggers[st.loggers.length]? = none ∧
      (∀ q, st.globalLogger = some q → q < st.loggers.length →
        GetGlobalLogger (Init sys st cfg).1 ≠ GetGlobalLogger st) ∧
      ∃ obj, (Init sys st cfg).1.loggers[st.loggers.length]? = some obj ∧
        obj.level = ParseLevel cfg.Level ∧ (Init sys st cfg).1.fieldMap obj.fields = ∅) ∧
    ((Init sys st cfg).2 ≠ none → (Init sys st cfg).1 = st) := by
  have key : (InitGlobalLogger st cfg).2 = none ∧
      GetGlobalLogger (InitGlobalLogger st cfg).1 = some st.loggers.length ∧
      ∃ obj, (InitGlobalLogger st cfg).1.loggers[st.loggers.length]? = some obj ∧
        obj.level = ParseLevel cfg.Level ∧
        (InitGlobalLogger st cfg).1.fieldMap obj.fields = ∅ := by
    refine ⟨rfl, rfl, _, List.getElem?_concat_length _ _, rfl, ?_⟩
    simp only [InitGlobalLogger, NewLogger, State.fieldMap, List.getD_eq_getElem?_getD,
      List.getElem?_concat_length, Option.getD_some]
  have hfresh : ∀ q, st.globalLogger = some q → q < st.loggers.length →
      some st.loggers.length ≠ GetGlobalLogger st := by
    intro q hq hlt heq
    rw [GetGlobalLogger, hq, Option.some.injEq] at heq
    omega
  unfold Init
  by_cases hf : cfg.Output = "file"
  · simp only [hf, if_true]
    cases hm : sys.mkdirAll (sys.dir cfg.File.Path) with
    | some err => simp
    | none =>
      simp only [key.1, ne_eq, not_true_eq_false, false_implies, and_true, true_implies]
      refine ⟨key.2.1, by simp, ?_, key.2.2⟩
      intro q hq hlt
      rw [key.2.1]
      exact hfresh q hq hlt
  · simp only [hf, if_false]
    simp only [key.1, ne_eq, not_true_eq_false, false_implies, and_true, true_implies]
    refine ⟨key.2.1, by simp, ?_, key.2.2⟩
    intro q hq hlt
    rw [key.2.1]
    exact hfresh q hq hlt

/-- Witness for C10 (amended): the second `Init` of the counterexample. -/
theorem Init_replaces_singleton_witness :
    (Init sampleSys (Init sampleSys State.initial DefaultConfig).1 debugConfig).2 = none ∧
    GetGlobalLogger (Init sampleSys (Init sampleSys State.initial DefaultConfig).1
      debugConfig).1 = some 1 :=
  ⟨rfl,
   ((Init_replaces_singleton sampleSys (Init sampleSys State.initial DefaultConfig).1
      debugConfig).1 rfl).1⟩

end logger


/-! ## Environment overlay, accessors, exported validator: supporting lemmas -/

theorem any_congr_mem {α : Type} (l : List α) (f g : α → Bool) (h : ∀ x ∈ l, f x = g x) :
    l.any f = l.any g := by
  induction l with
  | nil => rfl
  | cons a rest ih =>
    simp only [List.any_cons]
    rw [h a (List.mem_cons_self _ _), ih (fun x hx => h x (List.mem_cons_of_mem _ hx))]

theorem findSome?_congr_mem {α β : Type} (l : List α) (f g : α → Option β)
    (h : ∀ x ∈ l, f x = g x) : l.findSome? f = l.findSome? g := by
  induction l with
  | nil => rfl
  | cons a rest ih =>
    simp only [List.findSome?_cons]
    rw [h a (List.mem_cons_self _ _), ih (fun x hx => h x (List.mem_cons_of_mem _ hx))]

theorem filterMap_congr_mem {α β : Type} (l : List α) (f g : α → Option β)
    (h : ∀ x ∈ l, f x = g x) : l.filterMap f = l.filterMap g := by
  induction l with
  | nil => rfl
  | cons a rest ih =>
    simp only [List.filterMap_cons]
    rw [h a (List.mem_cons_self _ _), ih (fun x hx => h x (List.mem_cons_of_mem _ hx))]

/-- The lookup of a known key sees the environment only through the consulted
names. -/
theorem viperFind_congr (e1 e2 : Environ) (file : List (String × Raw)) (key : String)
    (hkey : key ∈ viperAllKeys file)
    (hagree : ∀ n ∈ consultedNames file, getEnv e1 n = getEnv e2 n) :
    viperFind e1 file key = viperFind e2 file key := by
  have hown : getEnv e1 (mergeWithEnvPrefix key) = getEnv e2 (mergeWithEnvPrefix key) := by
    apply hagree
    simp only [consultedNames, namesFor, List.mem_append, List.mem_flatMap]
    exact Or.inl ⟨key, hkey, List.mem_cons_self _ _⟩
  have hparents : isPathShadowedInAutoEnv e1 key = isPathShadowedInAutoEnv e2 key := by
    unfold isPathShadowedInAutoEnv
    apply any_congr_mem
    intro p hp
    have : getEnv e1 (mergeWithEnvPrefix p) = getEnv e2 (mergeWithEnvPrefix p) := by
      apply hagree
      simp only [consultedNames, namesFor, List.mem_append, List.mem_flatMap]
      exact Or.inl ⟨key, hkey, List.mem_cons_of_mem _ (List.mem_map_of_mem _ hp)⟩
    rw [this]
  have hbound : (bindEnvVars.filter (fun b => b.1 = key)).findSome? (fun b => getEnv e1 b.2) =
      (bindEnvVars.filter (fun b => b.1 = key)).findSome? (fun b => getEnv e2 b.2) := by
    apply findSome?_congr_mem
    intro b hb
    apply hagree
    simp only [consultedNames, List.mem_append]
    exact Or.inr (List.mem_map_of_mem _ (List.mem_filter.mp hb).1)
  unfold viperFind
  rw [hown, hparents, hbound]

theorem viperAllSettings_congr (e1 e2 : Environ) (file : List (String × Raw))
    (hagree : ∀ n ∈ consultedNames file, getEnv e1 n = getEnv e2 n) :
    viperAllSettings e1 file = viperAllSettings e2 file := by
  unfold viperAllSettings
  apply filterMap_congr_mem
  intro k hk
  rw [viperFind_congr e1 e2 file k hk hagree]

theorem fmtSprintf_dsn (u p h : String) (port : Int) (d cs : String) :
    fmtSprintf "%s:%s@tcp(%s:%d)/%s?charset=%s"
        [.str u, .str p, .str h, .int port, .str d, .str cs] =
      u ++ ":" ++ p ++ "@tcp(" ++ h ++ ":" ++ toString port ++ ")/" ++ d ++ "?charset=" ++ cs := by
  apply String.ext
  simp [fmtSprintf, fmtScan, String.data_append]

theorem fmtSprintf_addr (h : String) (port : Int) :
    fmtSprintf "%s:%d" [.str h, .int port] = h ++ ":" ++ toString port := by
  apply String.ext
  simp [fmtSprintf, fmtScan, String.data_append]

/-- The accessors of any manager are functions of the snapshot it holds. -/
theorem accessorsOf_config (m : Manager) : AccessorsOf m m.config := by
  refine ⟨rfl, fmtSprintf_dsn _ _ _ _ _ _, fmtSprintf_addr _ _, ?_, ?_, ?_⟩ <;>
    simp [Manager.IsProduction, Manager.IsDevelopment, Manager.IsTesting, Manager.Get]

theorem contains_iff_mem (l : List String) (s : String) : contains l s = true ↔ s ∈ l := by
  induction l with
  | nil => simp [contains]
  | cons a rest ih =>
    by_cases h : a = s
    · simp [contains, h]
    · have h' : ¬ s = a := fun e => h e.symm
      simp [contains, h, h', ih]

/-- The value `applyDefaults` leaves in `Log.File.MaxBackups`. -/
theorem applyDefaults_MaxBackups_eq (c : Config) :
    (applyDefaults c).Log.File.MaxBackups =
      if c.Log.File.MaxBackups = 0 then 10 else c.Log.File.MaxBackups := by
  obtain ⟨⟨a1, a2, a3, a4, a5⟩, ⟨d1, d2, d3, d4, d5, d6, d7, d8, d9⟩, r,
    ⟨l1, l2, l3, ⟨f1, f2, f3, f4, f5⟩⟩, ⟨j1, j2, j3⟩⟩ := c
  simp only [applyDefaults, ite_Config_App, ite_Config_Database, ite_Config_Log,
    ite_Config_JWT, ite_AppConfig_Port, ite_DatabaseConfig_Charset,
    ite_DatabaseConfig_MaxOpenConns, ite_DatabaseConfig_MaxIdleConns, ite_LogConfig_Level,
    ite_LogConfig_Format, ite_LogConfig_Output, ite_LogConfig_File, ite_FileConfig_MaxSize,
    ite_FileConfig_MaxBackups, ite_FileConfig_MaxAge, ite_JWTConfig_ExpireTime,
    ite_JWTConfig_Issuer]

theorem lookup_filterMap_graph (l : List String) (f : String → Option Raw) (k : String) :
    (l.filterMap (fun x => (f x).map (fun v => (x, v)))).lookup k =
      if k ∈ l then f k else none := by
  induction l with
  | nil => rfl
  | cons a rest ih =>
    by_cases hk : k = a
    · subst hk
      cases hf : f k with
      | none =>
        simp only [List.filterMap_cons, hf, Option.map_none', ih, List.mem_cons, true_or,
          if_true]
        split <;> rfl
      | some v =>
        simp [List.filterMap_cons, hf, List.lookup_cons]
    · have hne : (k == a) = false := by simpa using hk
      cases hf : f a with
      | none =>
        simp only [List.filterMap_cons, hf, Option.map_none', ih, List.mem_cons, hk, false_or]
      | some v =>
        simp only [List.filterMap_cons, hf, Option.map_some', List.lookup_cons, hne, ih,
          List.mem_cons, hk, false_or]

theorem ok_bind {ε α β : Type} (a : α) (f : α → Except ε β) :
    (Except.ok a >>= f) = f a := rfl

theorem bind_congr_map {ε α β γ : Type} (x : Except ε α) (f g : α → Except ε β) (r : β → γ)
    (h : ∀ a, (f a).map r = (g a).map r) : (x >>= f).map r = (x >>= g).map r := by
  cases x with
  | error e => rfl
  | ok a => exact h a

theorem option_bind_congr_map {α β γ : Type} (x : Option α) (f g : α → Option β) (r : β → γ)
    (h : ∀ a, (f a).map r = (g a).map r) : (x >>= f).map r = (x >>= g).map r := by
  cases x with
  | none => rfl
  | some a => exact h a

theorem lookup_isSome_iff (s : List (String × Raw)) (k : String) :
    (s.lookup k).isSome = true ↔ k ∈ s.map Prod.fst := by
  induction s with
  | nil => simp
  | cons kv rest ih =>
    obtain ⟨a, b⟩ := kv
    by_cases hk : k = a
    · subst hk
      simp [List.lookup_cons]
    · have hne : (k == a) = false := by simpa using hk
      simp only [List.lookup_cons, hne, ih, List.map_cons, List.mem_cons, hk, false_or]

theorem any_misplaced_iff (s : List (String × Raw)) :
    s.any (fun kv => misplaced kv.1) = true ↔
      ∃ k, misplaced k = true ∧ (s.lookup k).isSome = true := by
  simp only [List.any_eq_true, lookup_isSome_iff, List.mem_map]
  constructor
  · rintro ⟨kv, hkv, hm⟩
    exact ⟨kv.1, hm, kv, hkv, rfl⟩
  · rintro ⟨k, hm, kv, hkv, rfl⟩
    exact ⟨kv, hkv, hm⟩

theorem misplaced_not_bound (k : String) (hm : misplaced k = true) :
    k ∉ bindEnvVars.map Prod.fst := by
  intro hk
  have hall : ∀ b ∈ bindEnvVars.map Prod.fst, misplaced b = false := by decide
  rw [hall k hk] at hm
  cases hm

/-- Whether some setting is misplaced does not depend on the credentials. -/
theorem any_misplaced_congr (s1 s2 : List (String × Raw))
    (h : ∀ k, k ∉ bindEnvVars.map Prod.fst → s1.lookup k = s2.lookup k) :
    s1.any (fun kv => misplaced kv.1) = s2.any (fun kv => misplaced kv.1) := by
  rw [Bool.eq_iff_iff, any_misplaced_iff, any_misplaced_iff]
  constructor
  · rintro ⟨k, hm, hs⟩
    exact ⟨k, hm, by rw [← h k (misplaced_not_bound k hm)]; exact hs⟩
  · rintro ⟨k, hm, hs⟩
    exact ⟨k, hm, by rw [h k (misplaced_not_bound k hm)]; exact hs⟩

/-- Decoding sees the credentials only in the three credential fields. -/
theorem decodeFields_congr (lib : Lib) (s1 s2 : List (String × Raw))
    (h : ∀ k, k ∉ bindEnvVars.map Prod.fst → s1.lookup k = s2.lookup k) :
    (decodeFields lib s1).map offCredentials = (decodeFields lib s2).map offCredentials := by
  simp only [decodeFields,
    h "app.name" (by decide), h "app.version" (by decide), h "app.environment" (by decide),
    h "app.debug" (by decide), h "app.port" (by decide), h "database.driver" (by decide),
    h "database.host" (by decide), h "database.port" (by decide),
    h "database.username" (by decide), h "database.database" (by decide),
    h "database.charset" (by decide), h "database.maxopenconns" (by decide),
    h "database.maxidleconns" (by decide), h "redis.host" (by decide),
    h "redis.port" (by decide), h "redis.database" (by decide), h "log.level" (by decide),
    h "log.format" (by decide), h "log.output" (by decide), h "log.file.path" (by decide),
    h "log.file.maxsize" (by decide), h "log.file.maxbackups" (by decide),
    h "log.file.maxage" (by decide), h "log.file.compress" (by decide),
    h "jwt.expiretime" (by decide), h "jwt.issuer" (by decide)]
  repeat (refine option_bind_congr_map _ _ _ _ (fun _ => ?_))
  rfl

theorem viperDecode_ok (lib : Lib) (s : List (String × Raw)) (raw : Config)
    (h : viperDecode lib s = .ok raw) :
    s.any (fun kv => misplaced kv.1) = false ∧ decodeFields lib s = some raw := by
  unfold viperDecode at h
  cases hm : s.any (fun kv => misplaced kv.1) with
  | true => rw [hm] at h; simp at h
  | false =>
    rw [hm] at h
    cases hd : decodeFields lib s with
    | none => rw [hd] at h; simp at h
    | some c =>
      rw [hd] at h
      simp only [Bool.false_eq_true, if_false, Except.ok.injEq] at h
      exact ⟨rfl, by rw [h]⟩

/-- Two settings that agree off the credentials decode to snapshots that agree
off the credentials. -/
theorem viperDecode_congr (lib : Lib) (s1 s2 : List (String × Raw)) (r1 r2 : Config)
    (h : ∀ k, k ∉ bindEnvVars.map Prod.fst → s1.lookup k = s2.lookup k)
    (h1 : viperDecode lib s1 = .ok r1) (h2 : viperDecode lib s2 = .ok r2) :
    offCredentials r1 = offCredentials r2 := by
  have hd := decodeFields_congr lib s1 s2 h
  rw [(viperDecode_ok lib s1 r1 h1).2, (viperDecode_ok lib s2 r2 h2).2] at hd
  simpa using hd

theorem viperFind_congr_other (e1 e2 : Environ) (file : List (String × Raw)) (key : String)
    (hkey : key ∈ viperAllKeys file) (hnb : key ∉ bindEnvVars.map Prod.fst)
    (hagree : ∀ n ∈ otherNames file, getEnv e1 n = getEnv e2 n) :
    viperFind e1 file key = viperFind e2 file key := by
  have hmem : ∀ n ∈ namesFor key, n ∈ otherNames file := by
    intro n hn
    simp only [otherNames, List.mem_flatMap, List.mem_filter, decide_eq_true_eq]
    exact ⟨key, ⟨hkey, hnb⟩, hn⟩
  have hown : getEnv e1 (mergeWithEnvPrefix key) = getEnv e2 (mergeWithEnvPrefix key) :=
    hagree _ (hmem _ (List.mem_cons_self _ _))
  have hparents : isPathShadowedInAutoEnv e1 key = isPathShadowedInAutoEnv e2 key := by
    unfold isPathShadowedInAutoEnv
    apply any_congr_mem
    intro p hp
    rw [hagree _ (hmem _ (List.mem_cons_of_mem _ (List.mem_map_of_mem _ hp)))]
  have hbound : bindEnvVars.filter (fun b => decide (b.1 = key)) = [] := by
    rw [List.filter_eq_nil_iff]
    intro b hb hbk
    exact hnb (by
      have : b.1 = key := by simpa using hbk
      exact this ▸ List.mem_map_of_mem Prod.fst hb)
  unfold viperFind
  rw [hown, hparents, hbound]
  rfl

theorem settings_lookup_congr (e1 e2 : Environ) (file : List (String × Raw)) (key : String)
    (hnb : key ∉ bindEnvVars.map Prod.fst)
    (hagree : ∀ n ∈ otherNames file, getEnv e1 n = getEnv e2 n) :
    (viperAllSettings e1 file).lookup key = (viperAllSettings e2 file).lookup key := by
  unfold viperAllSettings
  rw [lookup_filterMap_graph, lookup_filterMap_graph]
  by_cases hkey : key ∈ viperAllKeys file
  · rw [if_pos hkey, if_pos hkey, viperFind_congr_other e1 e2 file key hkey hnb hagree]
  · rw [if_neg hkey, if_neg hkey]

/-- The default-fill neither reads nor writes the credentials. -/
theorem applyDefaults_offCredentials (c : Config) :
    offCredentials (applyDefaults c) = applyDefaults (offCredentials c) := by
  obtain ⟨⟨a1, a2, a3, a4, a5⟩, ⟨d1, d2, d3, d4, d5, d6, d7, d8, d9⟩, ⟨r1, r2, r3, r4⟩,
    ⟨l1, l2, l3, ⟨f1, f2, f3, f4, f5⟩⟩, ⟨j1, j2, j3⟩⟩ := c
  simp only [applyDefaults, offCredentials, ite_Config_App, ite_Config_Database,
    ite_Config_Log, ite_Config_JWT, ite_AppConfig_Port, ite_DatabaseConfig_Charset,
    ite_DatabaseConfig_MaxOpenConns, ite_DatabaseConfig_MaxIdleConns, ite_LogConfig_Level,
    ite_LogConfig_Format, ite_LogConfig_Output, ite_LogConfig_File, ite_FileConfig_MaxSize,
    ite_FileConfig_MaxBackups, ite_FileConfig_MaxAge, ite_JWTConfig_ExpireTime,
    ite_JWTConfig_Issuer]

/-- What `applyDefaults` leaves in the credentials, the log level and the
listen port. -/
theorem applyDefaults_overridden_fields (c : Config) :
    (applyDefaults c).Database.Password = c.Database.Password ∧
    (applyDefaults c).Redis.Password = c.Redis.Password ∧
    (applyDefaults c).JWT.Secret = c.JWT.Secret ∧
    (applyDefaults c).Log.Level = (if c.Log.Level = "" then "info" else c.Log.Level) ∧
    (applyDefaults c).App.Port = (if c.App.Port = 0 then 8080 else c.App.Port) := by
  obtain ⟨⟨a1, a2, a3, a4, a5⟩, ⟨d1, d2, d3, d4, d5, d6, d7, d8, d9⟩, ⟨r1, r2, r3, r4⟩,
    ⟨l1, l2, l3, ⟨f1, f2, f3, f4, f5⟩⟩, ⟨j1, j2, j3⟩⟩ := c
  simp only [applyDefaults, ite_Config_App, ite_Config_Database,
    ite_Config_Log, ite_Config_JWT, ite_AppConfig_Port, ite_DatabaseConfig_Charset,
    ite_DatabaseConfig_MaxOpenConns, ite_DatabaseConfig_MaxIdleConns, ite_LogConfig_Level,
    ite_LogConfig_Format, ite_LogConfig_Output, ite_LogConfig_File, ite_FileConfig_MaxSize,
    ite_FileConfig_MaxBackups, ite_FileConfig_MaxAge, ite_JWTConfig_ExpireTime,
    ite_JWTConfig_Issuer, and_self]

theorem viperOf_unmarshal_ok (lib : Lib) (files : Files) (env : Environ) (path : String)
    (raw : Config) (h : (viperOf lib files env).unmarshal path = .ok raw) :
    ∃ file, files path = .ok file ∧ viperDecode lib (viperAllSettings env file) = .ok raw := by
  simp only [viperOf] at h
  cases hf : files path with
  | error err => rw [hf] at h; cases h
  | ok file => rw [hf] at h; exact ⟨file, rfl, h⟩

/-- Two environments that agree on every consulted name give the same result,
errors included. -/
theorem LoadConfig_congr_env (lib : Lib) (files : Files) (e1 e2 : Environ)
    (path : String)
    (hagree : ∀ file, files path = .ok file →
      ∀ n ∈ consultedNames file, getEnv e1 n = getEnv e2 n) :
    LoadConfig (viperOf lib files e1) path = LoadConfig (viperOf lib files e2) path := by
  have hread : (viperOf lib files e1).readInConfig path =
      (viperOf lib files e2).readInConfig path := rfl
  have hun : (viperOf lib files e1).unmarshal path =
      (viperOf lib files e2).unmarshal path := by
    simp only [viperOf]
    cases hf : files path with
    | error err => rfl
    | ok file =>
      simp only []
      rw [viperAllSettings_congr e1 e2 file (hagree file hf)]
  unfold LoadConfig
  rw [hread, hun]

theorem option_bind_eq_some {α β : Type} (x : Option α) (f : α → Option β) (b : β)
    (h : (x >>= f) = some b) : ∃ a, x = some a ∧ f a = some b := by
  cases x with
  | none => cases h
  | some a => exact ⟨a, rfl, h⟩

/-- What a successful decoding put into the credentials, the log level and the
listen port. -/
theorem decodeFields_some (lib : Lib) (s : List (String × Raw)) (raw : Config)
    (h : decodeFields lib s = some raw) :
    raw.Database.Password = decodeString (s.lookup "database.password") ∧
    raw.Redis.Password = decodeString (s.lookup "redis.password") ∧
    raw.JWT.Secret = decodeString (s.lookup "jwt.secret") ∧
    raw.Log.Level = decodeString (s.lookup "log.level") ∧
    decodeInt lib (s.lookup "app.port") = some raw.App.Port := by
  unfold decodeFields at h
  obtain ⟨a1, -, h⟩ := option_bind_eq_some _ _ _ h
  obtain ⟨a2, h2, h⟩ := option_bind_eq_some _ _ _ h
  obtain ⟨a3, -, h⟩ := option_bind_eq_some _ _ _ h
  obtain ⟨a4, -, h⟩ := option_bind_eq_some _ _ _ h
  obtain ⟨a5, -, h⟩ := option_bind_eq_some _ _ _ h
  obtain ⟨a6, -, h⟩ := option_bind_eq_some _ _ _ h
  obtain ⟨a7, -, h⟩ := option_bind_eq_some _ _ _ h
  obtain ⟨a8, -, h⟩ := option_bind_eq_some _ _ _ h
  obtain ⟨a9, -, h⟩ := option_bind_eq_some _ _ _ h
  obtain ⟨a10, -, h⟩ := option_bind_eq_some _ _ _ h
  obtain ⟨a11, -, h⟩ := option_bind_eq_some _ _ _ h
  obtain ⟨a12, -, h⟩ := option_bind_eq_some _ _ _ h
  cases h
  exact ⟨rfl, rfl, rfl, rfl, h2⟩

/-- A non-empty variable named after a known key is the value of the key in the
settings. -/
theorem settings_override (env : Environ) (file : List (String × Raw)) (key v : String)
    (hkey : key ∈ viperAllKeys file) (henv : env (envName key) = some v) (hv : v ≠ "") :
    (viperAllSettings env file).lookup key = some (.str v) := by
  have hget : getEnv env (mergeWithEnvPrefix key) = some v := by
    have henv' : env (envKeyReplacer (mergeWithEnvPrefix key)) = some v := henv
    simp only [getEnv, henv', hv, if_false]
  unfold viperAllSettings
  rw [lookup_filterMap_graph, if_pos hkey]
  simp only [viperFind, hget]

/-- What `LoadConfig` on files and an environment went through when it returns
a snapshot. -/
theorem LoadConfig_viperOf_ok (lib : Lib) (files : Files) (env : Environ) (path : String)
    (c : Config) (h : LoadConfig (viperOf lib files env) path = .ok c) :
    ∃ file raw, files path = .ok file ∧
      (viperAllSettings env file).any (fun kv => misplaced kv.1) = false ∧
      decodeFields lib (viperAllSettings env file) = some raw ∧ c = applyDefaults raw := by
  obtain ⟨-, raw, hu, hc⟩ := LoadConfig_ok _ path c h
  obtain ⟨file, hf, hd⟩ := viperOf_unmarshal_ok lib files env path raw hu
  obtain ⟨hm, hdf⟩ := viperDecode_ok lib _ raw hd
  exact ⟨file, raw, hf, hm, hdf, hc⟩

/-- An integer of the file above the range of Go `int` wraps around, as the Go
conversion from `uint64` does. -/
theorem decodeInt_uint64_wraps (lib : Lib) :
    decodeInt lib (some (.int ⟨18446744073709551615, by decide⟩)) = some (-1) := by
  rfl

/-- A string whose numeral does not fit 64 bits fails to decode. -/
theorem decodeInt_out_of_range (lib : Lib) (s : String) (hs : s ≠ "")
    (h : lib.parseInt s = some 9223372036854775808) :
    decodeInt lib (some (.str s)) = none := by
  simp only [decodeInt, if_neg hs, h]
  rfl

/-- A scalar at a section key, or a key below a scalar field, makes `Unmarshal`
fail, and `LoadConfig` with it. -/
theorem LoadConfig_misplaced_fails (lib : Lib) :
    LoadConfig (viperOf lib (fun _ => .ok [("log", .str "x")]) emptyEnviron) "config.yaml" =
      .error (.wrap "failed to unmarshal config"
        (lib.unmarshalError [("log", .str "x")])) ∧
    LoadConfig (viperOf lib (fun _ => .ok [("app.name.first", .str "x")]) emptyEnviron)
        "config.yaml" =
      .error (.wrap "failed to unmarshal config"
        (lib.unmarshalError [("app.name.first", .str "x")])) :=
  ⟨rfl, rfl⟩

/-! ## C11 -/

/-- C11 (counterexample): one file, several process environments, whatever the
library parsers return. With nothing set the snapshot has `Log.Level = "info"`
and `App.Port = 8080` as the file says; with `MOVIEINFO_LOG_LEVEL=debug` set it
has `Log.Level = "debug"`; and with `MOVIEINFO_APP_PORT=9090` set as well (read
by `strconv.ParseInt` as 9090) it has `App.Port = 9090`. The snapshots differ
on fields other than the three credentials. -/
theorem env_overrides_other_fields :
    (∀ lib : Lib, LoadConfig (viperOf lib sampleFiles emptyEnviron) "config.yaml" =
      .ok (sampleSnapshot "info" 8080 "x")) ∧
    (∀ lib : Lib, LoadConfig (viperOf lib sampleFiles logLevelEnviron) "config.yaml" =
      .ok (sampleSnapshot "debug" 8080 "x")) ∧
    (∀ lib : Lib, lib.parseInt "9090" = some 9090 →
      LoadConfig (viperOf lib sampleFiles overridingEnviron) "config.yaml" =
        .ok (sampleSnapshot "debug" 9090 "x")) ∧
    (sampleSnapshot "info" 8080 "x").Log.Level ≠ (sampleSnapshot "debug" 8080 "x").Log.Level ∧
    (sampleSnapshot "info" 8080 "x").App.Port ≠ (sampleSnapshot "debug" 9090 "x").App.Port := by
  refine ⟨fun lib => rfl, fun lib => rfl, ?_, by decide, by decide⟩
  intro lib h
  have hl : lib = { lib with
      parseInt := fun s => if s = "9090" then some 9090 else lib.parseInt s } := by
    obtain ⟨pi, pd, ue⟩ := lib
    have : pi = fun s => if s = "9090" then some 9090 else pi s := by
      funext s
      by_cases hs : s = "9090"
      · rw [if_pos hs, hs]
        exact h
      · rw [if_neg hs]
    simp only [Lib.mk.injEq, and_self, and_true]
    exact this
  rw [hl]
  rfl

/-- C11 (amended): the environment overrides every key known to viper, not only
the three bound ones. (1) Two process environments that agree on the variables
consulted for the keys other than `database.password`, `redis.password` and
`jwt.secret` load, from the same file, snapshots that agree on every field other
than `Database.Password`, `Redis.Password` and `JWT.Secret`. (2) A non-empty
`MOVIEINFO_DATABASE_PASSWORD`, `MOVIEINFO_REDIS_PASSWORD` or
`MOVIEINFO_JWT_SECRET` is the value of its field in every loaded snapshot,
whether or not the file holds the key. (3) For every known key, a non-empty
`MOVIEINFO_<KEY>` is the value that `Unmarshal` decodes for the key. (4) So, for
a file that holds `log.level` or `app.port`, a non-empty `MOVIEINFO_LOG_LEVEL`
is the loaded `Log.Level`, and a `MOVIEINFO_APP_PORT` that parses to a non-zero
integer is the loaded `App.Port`. -/
theorem LoadConfig_env_dependence (lib : Lib) (files : Files) (path : String) :
    (∀ (e1 e2 : Environ) (c1 c2 : Config),
      (∀ file, files path = .ok file →
        ∀ n ∈ otherNames file, getEnv e1 n = getEnv e2 n) →
      LoadConfig (viperOf lib files e1) path = .ok c1 →
      LoadConfig (viperOf lib files e2) path = .ok c2 →
      offCredentials c1 = offCredentials c2) ∧
    (∀ (env : Environ) (c : Config) (v : String),
      LoadConfig (viperOf lib files env) path = .ok c → v ≠ "" →
      (env "MOVIEINFO_DATABASE_PASSWORD" = some v → c.Database.Password = v) ∧
      (env "MOVIEINFO_REDIS_PASSWORD" = some v → c.Redis.Password = v) ∧
      (env "MOVIEINFO_JWT_SECRET" = some v → c.JWT.Secret = v)) ∧
    (∀ (env : Environ) (file : List (String × Raw)) (key v : String),
      key ∈ viperAllKeys file → env (envName key) = some v → v ≠ "" →
      (viperAllSettings env file).lookup key = some (.str v)) ∧
    (∀ (env : Environ) (file : List (String × Raw)) (c : Config) (v : String),
      files path = .ok file → LoadConfig (viperOf lib files env) path = .ok c → v ≠ "" →
      ("log.level" ∈ file.map Prod.fst → env "MOVIEINFO_LOG_LEVEL" = some v →
        c.Log.Level = v) ∧
      ("app.port" ∈ file.map Prod.fst → env "MOVIEINFO_APP_PORT" = some v →
        ∀ n : Int, lib.parseInt v = some n → n ≠ 0 → c.App.Port = n)) := by
  refine ⟨?_, ?_, ?_, ?_⟩
  · intro e1 e2 c1 c2 hagree h1 h2
    obtain ⟨-, raw1, hu1, hc1⟩ := LoadConfig_ok _ path c1 h1
    obtain ⟨-, raw2, hu2, hc2⟩ := LoadConfig_ok _ path c2 h2
    obtain ⟨file, hf, hd1⟩ := viperOf_unmarshal_ok lib files e1 path raw1 hu1
    obtain ⟨file', hf', hd2⟩ := viperOf_unmarshal_ok lib files e2 path raw2 hu2
    have hfile : file' = file := by
      rw [hf] at hf'
      cases hf'
      rfl
    subst hfile
    have hraw := viperDecode_congr lib (viperAllSettings e1 file') (viperAllSettings e2 file')
      raw1 raw2 (fun k hk => settings_lookup_congr e1 e2 file' k hk (hagree file' hf)) hd1 hd2
    rw [hc1, hc2, applyDefaults_offCredentials, applyDefaults_offCredentials, hraw]
  · intro env c v hload hv
    obtain ⟨file, raw, -, -, hdf, hc⟩ := LoadConfig_viperOf_ok lib files env path c hload
    obtain ⟨hp, hr, hj, -, -⟩ := decodeFields_some lib _ raw hdf
    obtain ⟨ap, ar, aj, -, -⟩ := applyDefaults_overridden_fields raw
    refine ⟨?_, ?_, ?_⟩
    · intro henv
      rw [hc, ap, hp, settings_override env file "database.password" v
        (by simp [viperAllKeys, bindEnvVars]) henv hv]
      rfl
    · intro henv
      rw [hc, ar, hr, settings_override env file "redis.password" v
        (by simp [viperAllKeys, bindEnvVars]) henv hv]
      rfl
    · intro henv
      rw [hc, aj, hj, settings_override env file "jwt.secret" v
        (by simp [viperAllKeys, bindEnvVars]) henv hv]
      rfl
  · intro env file key v hkey henv hv
    exact settings_override env file key v hkey henv hv
  · intro env file c v hfile hload hv
    obtain ⟨file', raw, hf', -, hdf, hc⟩ := LoadConfig_viperOf_ok lib files env path c hload
    have hfile' : file' = file := by
      rw [hfile] at hf'
      cases hf'
      rfl
    subst hfile'
    obtain ⟨-, -, -, hl, hport⟩ := decodeFields_some lib _ raw hdf
    obtain ⟨-, -, -, al, aport⟩ := applyDefaults_overridden_fields raw
    have hknown : ∀ k, k ∈ file'.map Prod.fst → isPathShadowedInFlatMap k = false →
        k ∈ viperAllKeys file' := by
      intro k hk hs
      simp only [viperAllKeys, List.mem_append, List.mem_filter]
      exact Or.inr ⟨hk, by simp [hs]⟩
    refine ⟨?_, ?_⟩
    · intro hmem henv
      have hset := settings_override env file' "log.level" v
        (hknown _ hmem (by decide)) henv hv
      rw [hc, al, hl, hset]
      show (if v = "" then "info" else v) = v
      rw [if_neg hv]
    · intro hmem henv n hparse hn
      have hset := settings_override env file' "app.port" v
        (hknown _ hmem (by decide)) henv hv
      rw [hset] at hport
      simp only [decodeInt, if_neg hv, hparse] at hport
      have hraw : raw.App.Port = n := by
        by_cases hr : inInt64 n = true
        · rw [if_pos hr] at hport
          exact (Option.some.inj hport).symm
        · rw [if_neg hr] at hport
          cases hport
      rw [hc, aport, hraw, if_neg hn]

/-- Witness for C11 (amended): the empty environment and one that sets only
`MOVIEINFO_DATABASE_PASSWORD` load, whatever the library parsers return,
snapshots with different datastore credentials that agree on every other
field, and the variable's value is the loaded credential. -/
theorem LoadConfig_env_dependence_witness :
    (sampleSnapshot "info" 8080 "x").Database.Password ≠
      (sampleSnapshot "info" 8080 "y").Database.Password ∧
    ∀ lib : Lib,
      LoadConfig (viperOf lib sampleFiles emptyEnviron) "config.yaml" =
        .ok (sampleSnapshot "info" 8080 "x") ∧
      LoadConfig (viperOf lib sampleFiles passwordEnviron) "config.yaml" =
        .ok (sampleSnapshot "info" 8080 "y") ∧
      offCredentials (sampleSnapshot "info" 8080 "x") =
        offCredentials (sampleSnapshot "info" 8080 "y") ∧
      (sampleSnapshot "info" 8080 "y").Database.Password = "y" :=
  ⟨by decide, fun lib =>
    ⟨rfl, rfl,
     (LoadConfig_env_dependence lib sampleFiles "config.yaml").1 emptyEnviron passwordEnviron
        _ _
        (by
          intro file hfile n hn
          have hfile' : file = sampleFile := by
            simp only [sampleFiles, Except.ok.injEq] at hfile
            exact hfile.symm
          subst hfile'
          revert n
          decide)
        rfl rfl,
     ((LoadConfig_env_dependence lib sampleFiles "config.yaml").2.1 passwordEnviron
        (sampleSnapshot "info" 8080 "y") "y" rfl (by decide)).1 rfl⟩⟩

/-! ## C12 -/

/-- C12: the derived accessors are functions of the manager's current
snapshot: `GetDSN` is `<Username>:<Password>@tcp(<Host>:<Port>)/<Database>?charset=<Charset>`
of its datastore section, `GetRedisAddr` is `<Host>:<Port>` of its cache
section, and the three predicates compare `App.Environment` with their tag;
after a successful `Reload` that loads `c'`, `Get` returns `c'` and every
accessor is the same function of `c'`. -/
theorem accessors_follow_snapshot (v : Viper) (m : Manager) :
    AccessorsOf m m.Get ∧
    ∀ c', LoadConfig v m.configPath = .ok c' →
      (m.Reload v).2.1 = none ∧ AccessorsOf (m.Reload v).1 c' := by
  refine ⟨accessorsOf_config m, ?_⟩
  intro c' hload
  have hre : m.Reload v = ({ m with config := c' }, none, ["Config reloaded successfully"]) := by
    simp only [Manager.Reload, hload]
  rw [hre]
  exact ⟨rfl, accessorsOf_config { m with config := c' }⟩

/-- Witness for C12: a development manager reloaded from a file that now says
production. -/
theorem accessors_follow_snapshot_witness :
    (Manager.Reload (sampleViper (sampleRaw "production" "pw" "s3cret"))
      ⟨applyDefaults (sampleRaw "development" "old" "s3cret"), "config.yaml"⟩).2.1 = none ∧
    AccessorsOf
      (Manager.Reload (sampleViper (sampleRaw "production" "pw" "s3cret"))
        ⟨applyDefaults (sampleRaw "development" "old" "s3cret"), "config.yaml"⟩).1
      (applyDefaults (sampleRaw "production" "pw" "s3cret")) :=
  (accessors_follow_snapshot (sampleViper (sampleRaw "production" "pw" "s3cret"))
    ⟨applyDefaults (sampleRaw "development" "old" "s3cret"), "config.yaml"⟩).2
    (applyDefaults (sampleRaw "production" "pw" "s3cret")) rfl

/-! ## C13 -/

/-- C13: the exported `ValidateConfig` accumulates every violation: the list it
builds is, in order, the signing-secret entry, the datastore-credential entry,
one `Invalid port` entry per port of `App.Port`, `Database.Port`, `Redis.Port`
outside [1, 65535], and the log-level entry; and it returns nil exactly when
that list is empty. -/
theorem ValidateConfig_accumulates (c : Config) :
    ValidateConfig.errors c = expectedErrors c ∧
    (ValidateConfig c = none ↔ expectedErrors c = []) := by
  have herr : ValidateConfig.errors c = expectedErrors c := by
    have hp : ∀ p : Int, (p < 1 ∨ p > 65535) ↔ ¬ (1 ≤ p ∧ p ≤ 65535) := by
      intro p; omega
    have hl : (¬ contains ["debug", "info", "warn", "error"] c.Log.Level = true) ↔
        ¬ c.Log.Level ∈ ["debug", "info", "warn", "error"] := by
      rw [contains_iff_mem]
    simp only [ValidateConfig.errors, expectedErrors, List.foldl_cons, List.foldl_nil, hp, hl,
      List.nil_append, Bool.not_eq_true, List.filter_cons, List.filter_nil,
      decide_eq_true_eq]
    by_cases h1 : c.JWT.Secret = "" <;>
    by_cases h2 : c.Database.Password = "" ∧ stringsContains c.App.Environment "test" = false <;>
    by_cases h3 : (1 ≤ c.App.Port ∧ c.App.Port ≤ 65535) <;>
    by_cases h4 : (1 ≤ c.Database.Port ∧ c.Database.Port ≤ 65535) <;>
    by_cases h5 : (1 ≤ c.Redis.Port ∧ c.Redis.Port ≤ 65535) <;>
    by_cases h6 : c.Log.Level ∈ ["debug", "info", "warn", "error"] <;>
    simp [h1, h2, h3, h4, h5, h6]
  refine ⟨herr, ?_⟩
  unfold ValidateConfig
  rw [herr]
  cases expectedErrors c <;> simp

/-! ## C14 -/

/-- C14: after `applyDefaults` the field `Log.File.MaxBackups` is never 0: an
input value of 0 becomes 10 and any other value is kept; hence every snapshot
returned by `LoadConfig` has `Log.File.MaxBackups ≥ 1`, although the tag
`min=0` alone would admit 0. -/
theorem MaxBackups_never_zero (c : Config) :
    (applyDefaults c).Log.File.MaxBackups ≠ 0 ∧
    (c.Log.File.MaxBackups = 0 → (applyDefaults c).Log.File.MaxBackups = 10) ∧
    (c.Log.File.MaxBackups ≠ 0 →
      (applyDefaults c).Log.File.MaxBackups = c.Log.File.MaxBackups) ∧
    ∀ (v : Viper) (path : String) (s : Config),
      LoadConfig v path = .ok s → 1 ≤ s.Log.File.MaxBackups := by
  have key : ∀ c : Config, (applyDefaults c).Log.File.MaxBackups ≠ 0 := by
    intro c
    rw [applyDefaults_MaxBackups_eq]
    split
    · decide
    · assumption
  refine ⟨key c, ?_, ?_, ?_⟩
  · intro h
    rw [applyDefaults_MaxBackups_eq, if_pos h]
  · intro h
    rw [applyDefaults_MaxBackups_eq, if_neg h]
  · intro v path s hload
    obtain ⟨hv, raw, -, hs⟩ := LoadConfig_ok v path s hload
    have hstatic := ((validateConfig_eq_none_iff s).mp hv).1
    obtain ⟨-, -, -, ⟨-, -, -, -, -, -, -, -, hge, -⟩, -⟩ :=
      (validateStruct_eq_nil_iff s).mp hstatic
    have hne : s.Log.File.MaxBackups ≠ 0 := by
      rw [hs]
      exact key raw
    omega

/-- Witness for C14: a file that leaves `max_backups` out (or writes 0) loads
with `Log.File.MaxBackups = 10`. -/
theorem MaxBackups_never_zero_witness :
    (sampleRaw "production" "pw" "s3cret").Log.File.MaxBackups = 0 ∧
    (applyDefaults (sampleRaw "production" "pw" "s3cret")).Log.File.MaxBackups = 10 ∧
    1 ≤ (applyDefaults (sampleRaw "production" "pw" "s3cret")).Log.File.MaxBackups :=
  ⟨rfl,
   (MaxBackups_never_zero (sampleRaw "production" "pw" "s3cret")).2.1 rfl,
   (MaxBackups_never_zero (sampleRaw "production" "pw" "s3cret")).2.2.2
     (sampleViper (sampleRaw "production" "pw" "s3cret")) "config.yaml" _ rfl⟩

end MovieInfo
